import Mathlib

/-!
Shallow embedding of the e-commerce domain services of this repository
(order service, cart repository/service, product stock ledger, category
hierarchy service) and proofs about them.

Conventions of the embedding:
* SQLAlchemy `Decimal` money amounts are modelled as `ℚ` (Python `Decimal`
  arithmetic on the values occurring here is exact).
* Python `int` is modelled as `Int`; primary keys as `Nat`.
* The database is an explicit `DB` value threaded through each operation;
  a raised `HTTPException` is an `Except.error` carrying the error kind
  (404 NotFound / 400 BadRequest / 403 Forbidden) and the detail message,
  and leaves the state unchanged (the surrounding transaction aborts).
* Repository functions that signal failure by returning `None` are
  modelled with `Option`.
* `datetime.utcnow()` is modelled by an explicit `now : Nat` parameter;
  the generated order number and the fresh order id are parameters.
-/

/-- Truthiness of an optional string, as Python `or` sees it:
`None` and the empty string are falsy. -/
def pyStrOr (o : Option String) (d : String) : String :=
  match o with
  | none => d
  | some s => if s = "" then d else s

/-- Python truthiness test for an optional string. -/
def pyTruthy (o : Option String) : Bool :=
  match o with
  | none => false
  | some s => s ≠ ""

/-- Error kinds of the domain layer (HTTP status of the raised exception). -/
inductive ErrKind where
  | notFound
  | badRequest
  | forbidden
  | conflict
deriving Repr, DecidableEq

abbrev Err := ErrKind × String

/-- app/models/order.py `OrderStatus`. -/
inductive OrderStatus where
  | pending
  | confirmed
  | processing
  | shipped
  | delivered
  | cancelled
  | refunded
deriving Repr, DecidableEq

/-- app/models/order.py `PaymentStatus`. -/
inductive PaymentStatus where
  | pending
  | paid
  | failed
  | refunded
deriving Repr, DecidableEq

/-- app/models/product.py `Product` (the columns the domain logic reads). -/
structure Product where
  id : Nat
  name : String
  sku : String
  price : ℚ
  sale_price : Option ℚ
  stock_quantity : Int
  min_stock_level : Int
  is_active : Bool
deriving Repr, DecidableEq

/-- `Product.current_price`: sale price if present, else price. -/
def Product.current_price (p : Product) : ℚ :=
  match p.sale_price with
  | some sp => sp
  | none => p.price

/-- app/models/cart.py `CartItem` (row of the cart_items table). -/
structure CartItem where
  cart_id : Nat
  product_id : Nat
  quantity : Int
  unit_price : ℚ
deriving Repr, DecidableEq

/-- `CartItem.subtotal = unit_price * quantity` (computed property). -/
def CartItem.subtotal (it : CartItem) : ℚ :=
  it.unit_price * (it.quantity : ℚ)

/-- app/models/cart.py `Cart` together with its loaded `items` relationship,
as `create_order_from_cart` receives it. -/
structure Cart where
  id : Nat
  user_id : Option Nat
  is_active : Bool
  items : List CartItem
deriving Repr, DecidableEq

/-- `Cart.total_amount`: sum of the item subtotals. -/
def Cart.total_amount (c : Cart) : ℚ :=
  (c.items.map CartItem.subtotal).sum

/-- Cart row without its items, as stored in the carts table. -/
structure CartRow where
  id : Nat
  user_id : Option Nat
  is_active : Bool
deriving Repr, DecidableEq

/-- app/models/user.py `User` (the fields the order/cart services read). -/
structure User where
  id : Nat
  is_superuser : Bool
deriving Repr, DecidableEq

/-- app/models/order.py `OrderItem` (snapshot row). -/
structure OrderItem where
  order_id : Nat
  product_id : Nat
  product_name : String
  product_sku : String
  quantity : Int
  unit_price : ℚ
  total_price : ℚ
deriving Repr, DecidableEq

/-- app/models/order.py `Order` with its loaded `items` relationship. -/
structure Order where
  id : Nat
  order_number : String
  user_id : Nat
  status : OrderStatus
  payment_status : PaymentStatus
  subtotal : ℚ
  tax_amount : ℚ
  shipping_cost : ℚ
  discount_amount : ℚ
  total_amount : ℚ
  shipping_address : String
  shipping_city : String
  shipping_country : String
  shipping_postal_code : String
  shipping_phone : Option String
  billing_address : Option String
  billing_city : Option String
  billing_country : Option String
  billing_postal_code : Option String
  notes : Option String
  tracking_number : Option String
  payment_method : Option String
  payment_reference : Option String
  shipped_at : Option Nat
  delivered_at : Option Nat
  items : List OrderItem
deriving Repr, DecidableEq

/-- app/schemas/order.py `OrderItemCreate`. -/
structure OrderItemCreate where
  product_id : Nat
  quantity : Int
deriving Repr, DecidableEq

/-- app/schemas/order.py `OrderCreate`. -/
structure OrderCreate where
  shipping_address : String
  shipping_city : String
  shipping_country : String
  shipping_postal_code : String
  shipping_phone : Option String
  billing_address : Option String
  billing_city : Option String
  billing_country : Option String
  billing_postal_code : Option String
  notes : Option String
  payment_method : Option String
  items : List OrderItemCreate
deriving Repr, DecidableEq

/-- The relational store: one list per table touched by the embedded code. -/
structure DB where
  products : List Product
  orders : List Order
  carts : List CartRow
  cart_items : List CartItem
deriving Repr, DecidableEq

/-- Repository get-by-id on the products table. -/
def findProduct (db : DB) (pid : Nat) : Option Product :=
  db.products.find? (fun p => p.id = pid)

/-- Repository get-by-id on the orders table. -/
def findOrder (db : DB) (oid : Nat) : Option Order :=
  db.orders.find? (fun o => o.id = oid)

/-- Persisting a mutated product row (identified by its primary key). -/
def DB.setProduct (db : DB) (p : Product) : DB :=
  { db with products := db.products.map (fun q => if q.id = p.id then p else q) }

/-- Persisting a mutated order row (identified by its primary key). -/
def DB.setOrder (db : DB) (o : Order) : DB :=
  { db with orders := db.orders.map (fun x => if x.id = o.id then o else x) }

/-- Current stock of a product, `none` when the id does not resolve. -/
def stockOf (db : DB) (pid : Nat) : Option Int :=
  (findProduct db pid).map Product.stock_quantity

/-- app/repositories/product_repository.py `ProductRepository.update_stock`
(the Stock Ledger): returns `none` when the product id does not resolve
(the caller surfaces this as NotFound); otherwise applies the operation.
An unrecognized operation string leaves the stock unchanged, as in the
source. -/
def update_stock (db : DB) (product_id : Nat) (quantity : Int)
    (operation : String) : Option (DB × Product) :=
  match findProduct db product_id with
  | none => none
  | some product =>
    let newStock :=
      if operation = "add" then product.stock_quantity + quantity
      else if operation = "subtract" then max 0 (product.stock_quantity - quantity)
      else if operation = "set" then max 0 quantity
      else product.stock_quantity
    let product2 := { product with stock_quantity := newStock }
    some (db.setProduct product2, product2)

/-- app/services/order_service.py `_update_product_stock`: subtract each
cart item quantity via the Stock Ledger (a missing product is skipped,
since the repository returns `None` and the result is discarded). -/
def _update_product_stock (db : DB) (cart_items : List CartItem) : DB :=
  cart_items.foldl
    (fun d it =>
      match update_stock d it.product_id it.quantity "subtract" with
      | none => d
      | some (d2, _) => d2)
    db

/-- app/services/order_service.py `_restore_product_stock`: add each order
item quantity back via the Stock Ledger. -/
def _restore_product_stock (db : DB) (order_items : List OrderItem) : DB :=
  order_items.foldl
    (fun d it =>
      match update_stock d it.product_id it.quantity "add" with
      | none => d
      | some (d2, _) => d2)
    db

/-- `_calculate_tax`: 21% of the subtotal. -/
def _calculate_tax (subtotal : ℚ) : ℚ :=
  subtotal * (21 / 100 : ℚ)

/-- `_calculate_shipping` (cart-based): free when the cart total is at
least 100, otherwise a flat 10. -/
def _calculate_shipping (cart : Cart) : ℚ :=
  if cart.total_amount ≥ 100 then 0 else 10

/-- `_calculate_shipping_direct`: always the flat 10. -/
def _calculate_shipping_direct : ℚ := 10

/-- `_is_valid_status_transition`: the order status transition table. -/
def _is_valid_status_transition (current_status new_status : OrderStatus) : Bool :=
  match current_status with
  | .pending => new_status = .confirmed || new_status = .cancelled
  | .confirmed => new_status = .processing || new_status = .cancelled
  | .processing => new_status = .shipped || new_status = .cancelled
  | .shipped => new_status = .delivered
  | .delivered => false
  | .cancelled => false
  | .refunded => false

/-- The per-item validation loop of `create_order_from_cart`: product must
resolve and be active, and its stock must cover the item quantity.
Items are checked in list order and the first failure is raised. -/
def validateCartItems (db : DB) : List CartItem → Except Err Unit
  | [] => .ok ()
  | it :: rest =>
    match findProduct db it.product_id with
    | none => .error (.badRequest, "Product is not available")
    | some product =>
      if !product.is_active then .error (.badRequest, "Product is not available")
      else if product.stock_quantity < it.quantity then
        .error (.badRequest, "Insufficient stock for product")
      else validateCartItems db rest

/-- Order item snapshot built from a cart item (name and SKU are read from
the product relationship, which validation has shown to resolve). -/
def mkOrderItemFromCart (db : DB) (oid : Nat) (it : CartItem) : OrderItem :=
  { order_id := oid
    product_id := it.product_id
    product_name := match findProduct db it.product_id with
      | some p => p.name
      | none => ""
    product_sku := match findProduct db it.product_id with
      | some p => p.sku
      | none => ""
    quantity := it.quantity
    unit_price := it.unit_price
    total_price := it.subtotal }

/-- app/services/order_service.py `create_order_from_cart`.
`order_number` abstracts `_generate_order_number()` and `oid` the id the
flush assigns. On success the new order row (with its item snapshots) is
committed and then the stock of every cart item is decremented. -/
def create_order_from_cart (db : DB) (cart : Cart) (user : User)
    (order_data : OrderCreate) (order_number : String) (oid : Nat) :
    Except Err (DB × Order) :=
  if cart.items = [] then
    .error (.badRequest, "Cannot create order from empty cart")
  else if cart.user_id ≠ some user.id then
    .error (.forbidden, "Cart does not belong to user")
  else match validateCartItems db cart.items with
  | .error e => .error e
  | .ok _ =>
    let subtotal := cart.total_amount
    let tax_amount := _calculate_tax subtotal
    let shipping_cost := _calculate_shipping cart
    let discount_amount : ℚ := 0
    let total_amount := subtotal + tax_amount + shipping_cost - discount_amount
    let order : Order :=
      { id := oid
        order_number := order_number
        user_id := user.id
        status := .pending
        payment_status := .pending
        subtotal := subtotal
        tax_amount := tax_amount
        shipping_cost := shipping_cost
        discount_amount := discount_amount
        total_amount := total_amount
        shipping_address := order_data.shipping_address
        shipping_city := order_data.shipping_city
        shipping_country := order_data.shipping_country
        shipping_postal_code := order_data.shipping_postal_code
        shipping_phone := order_data.shipping_phone
        billing_address := some (pyStrOr order_data.billing_address order_data.shipping_address)
        billing_city := some (pyStrOr order_data.billing_city order_data.shipping_city)
        billing_country := some (pyStrOr order_data.billing_country order_data.shipping_country)
        billing_postal_code := some (pyStrOr order_data.billing_postal_code order_data.shipping_postal_code)
        notes := order_data.notes
        tracking_number := none
        payment_method := order_data.payment_method
        payment_reference := none
        shipped_at := none
        delivered_at := none
        items := cart.items.map (mkOrderItemFromCart db oid) }
    let db1 : DB := { db with orders := db.orders ++ [order] }
    let db2 := _update_product_stock db1 cart.items
    .ok (db2, order)

/-- An item of `validated_items` in `create_order_direct`. -/
structure ValidatedItem where
  product : Product
  quantity : Int
  unit_price : ℚ
  total_price : ℚ
deriving Repr, DecidableEq

/-- The validation loop of `create_order_direct`: looks each product up in
the catalog, requires it active with sufficient stock, prices the line at
`current_price`, and accumulates the running total left to right. -/
def validateDirectItems (db : DB) (acc : ℚ) :
    List OrderItemCreate → Except Err (ℚ × List ValidatedItem)
  | [] => .ok (acc, [])
  | it :: rest =>
    match findProduct db it.product_id with
    | none => .error (.badRequest, "Product is not available")
    | some product =>
      if !product.is_active then .error (.badRequest, "Product is not available")
      else if product.stock_quantity < it.quantity then
        .error (.badRequest, "Insufficient stock for product")
      else
        let item_total := product.current_price * (it.quantity : ℚ)
        match validateDirectItems db (acc + item_total) rest with
        | .error e => .error e
        | .ok (total, vs) =>
          .ok (total, { product := product, quantity := it.quantity,
                        unit_price := product.current_price,
                        total_price := item_total } :: vs)

/-- Order item snapshot built from a validated direct item. -/
def mkOrderItemDirect (oid : Nat) (v : ValidatedItem) : OrderItem :=
  { order_id := oid
    product_id := v.product.id
    product_name := v.product.name
    product_sku := v.product.sku
    quantity := v.quantity
    unit_price := v.unit_price
    total_price := v.total_price }

/-- app/services/order_service.py `create_order_direct`: same shape as the
cart path but items and prices are sourced live from the product catalog,
shipping uses the direct rule, and no stock decrement is performed. -/
def create_order_direct (db : DB) (user : User) (order_data : OrderCreate)
    (order_number : String) (oid : Nat) : Except Err (DB × Order) :=
  if order_data.items = [] then
    .error (.badRequest, "Order must have at least one item")
  else match validateDirectItems db 0 order_data.items with
  | .error e => .error e
  | .ok (total_amount, validated_items) =>
    let subtotal := total_amount
    let tax_amount := _calculate_tax subtotal
    let shipping_cost := _calculate_shipping_direct
    let discount_amount : ℚ := 0
    let final_total := subtotal + tax_amount + shipping_cost - discount_amount
    let order : Order :=
      { id := oid
        order_number := order_number
        user_id := user.id
        status := .pending
        payment_status := .pending
        subtotal := subtotal
        tax_amount := tax_amount
        shipping_cost := shipping_cost
        discount_amount := discount_amount
        total_amount := final_total
        shipping_address := order_data.shipping_address
        shipping_city := order_data.shipping_city
        shipping_country := order_data.shipping_country
        shipping_postal_code := order_data.shipping_postal_code
        shipping_phone := order_data.shipping_phone
        billing_address := some (pyStrOr order_data.billing_address order_data.shipping_address)
        billing_city := some (pyStrOr order_data.billing_city order_data.shipping_city)
        billing_country := some (pyStrOr order_data.billing_country order_data.shipping_country)
        billing_postal_code := some (pyStrOr order_data.billing_postal_code order_data.shipping_postal_code)
        notes := order_data.notes
        tracking_number := none
        payment_method := order_data.payment_method
        payment_reference := none
        shipped_at := none
        delivered_at := none
        items := validated_items.map (mkOrderItemDirect oid) }
    let db1 : DB := { db with orders := db.orders ++ [order] }
    .ok (db1, order)

/-- app/services/order_service.py `update_order_status`: only a superuser
may change the status, the transition table is enforced, and the shipped
and delivered timestamps are set only if not already set. -/
def update_order_status (db : DB) (order_id : Nat) (new_status : OrderStatus)
    (current_user : User) (now : Nat) : Except Err (DB × Order) :=
  match findOrder db order_id with
  | none => .error (.notFound, "Order not found")
  | some order =>
    if !current_user.is_superuser then
      .error (.forbidden, "Not authorized to update order status")
    else if !_is_valid_status_transition order.status new_status then
      .error (.badRequest, "Invalid status transition")
    else
      let order1 := { order with status := new_status }
      let order2 :=
        if new_status = .shipped ∧ order.shipped_at = none then
          { order1 with shipped_at := some now }
        else if new_status = .delivered ∧ order.delivered_at = none then
          { order1 with delivered_at := some now }
        else order1
      .ok (db.setOrder order2, order2)

/-- app/services/order_service.py `update_payment_status`: a provided
non-superuser actor is rejected; a truthy payment reference is recorded;
PAID while the order is still PENDING auto-confirms the order. -/
def update_payment_status (db : DB) (order_id : Nat)
    (new_payment_status : PaymentStatus) (payment_reference : Option String)
    (current_user : Option User) : Except Err (DB × Order) :=
  match findOrder db order_id with
  | none => .error (.notFound, "Order not found")
  | some order =>
    if (match current_user with
        | some u => !u.is_superuser
        | none => false) then
      .error (.forbidden, "Not authorized to update payment status")
    else
      let order1 := { order with payment_status := new_payment_status }
      let order2 :=
        if pyTruthy payment_reference then
          { order1 with payment_reference := payment_reference }
        else order1
      let order3 :=
        if new_payment_status = .paid ∧ order.status = .pending then
          { order2 with status := .confirmed }
        else order2
      .ok (db.setOrder order3, order3)

/-- The ownership guard of `cancel_order`: rejected when an actor is given
who is neither the order owner nor a superuser. -/
def cancelForbidden (order : Order) : Option User → Bool
  | some u => decide (order.user_id ≠ u.id) && !u.is_superuser
  | none => false

/-- app/services/order_service.py `cancel_order`: shipped and delivered
orders cannot be cancelled, nor an already cancelled one; a confirmed or
processing order has its item stock restored first; the reason is appended
to the notes and the status set to CANCELLED. -/
def cancel_order (db : DB) (order_id : Nat) (reason : Option String)
    (user : Option User) : Except Err (DB × Order) :=
  match findOrder db order_id with
  | none => .error (.notFound, "Order not found")
  | some order =>
    if cancelForbidden order user then
      .error (.forbidden, "Not authorized to cancel this order")
    else if order.status = .shipped ∨ order.status = .delivered then
      .error (.badRequest, "Cannot cancel shipped or delivered orders")
    else if order.status = .cancelled then
      .error (.badRequest, "Order is already cancelled")
    else
      let db1 :=
        if order.status = .confirmed ∨ order.status = .processing then
          _restore_product_stock db order.items
        else db
      let order2 :=
        { order with
          status := .cancelled
          notes := some (((order.notes.getD "") ++ "\nCancelled: "
            ++ pyStrOr reason "No reason provided").trim) }
      .ok (db1.setOrder order2, order2)

/-- Persisting the mutation of the ORM row found by the add-item query:
the first row matching the (cart_id, product_id) pair gets the new
quantity. -/
def updateFirstPair : List CartItem → Nat → Nat → Int → List CartItem
  | [], _, _, _ => []
  | it :: rest, cid, pid, q =>
    if it.cart_id = cid && it.product_id = pid then
      { it with quantity := q } :: rest
    else it :: updateFirstPair rest cid pid q

/-- app/repositories/cart_repository.py `add_item_to_cart`: requires an
active product with enough stock; an existing (cart_id, product_id) row
has its quantity incremented after re-validating the combined quantity,
otherwise a new row is created with the current price snapshotted.
`none` models the repository returning None. -/
def CartRepo.add_item_to_cart (db : DB) (cart_id product_id : Nat)
    (quantity : Int) : Option (DB × CartItem) :=
  match db.products.find? (fun p => p.id = product_id && p.is_active) with
  | none => none
  | some product =>
    if product.stock_quantity < quantity then none
    else
      match db.cart_items.find?
          (fun it => it.cart_id = cart_id && it.product_id = product_id) with
      | some existing_item =>
        let new_quantity := existing_item.quantity + quantity
        if product.stock_quantity < new_quantity then none
        else
          let item2 := { existing_item with quantity := new_quantity }
          some ({ db with cart_items :=
                    updateFirstPair db.cart_items cart_id product_id new_quantity },
                item2)
      | none =>
        let cart_item : CartItem :=
          { cart_id := cart_id
            product_id := product_id
            quantity := quantity
            unit_price := product.current_price }
        some ({ db with cart_items := db.cart_items ++ [cart_item] }, cart_item)

/-- app/services/cart_service.py `add_item_to_cart`: the cart must exist,
the quantity must be positive, and a None from the repository becomes a
BadRequest. -/
def CartService.add_item_to_cart (db : DB) (cart_id product_id : Nat)
    (quantity : Int) : Except Err (DB × CartItem) :=
  match db.carts.find? (fun c => c.id = cart_id) with
  | none => .error (.notFound, "Cart not found")
  | some _ =>
    if quantity ≤ 0 then
      .error (.badRequest, "Quantity must be greater than 0")
    else
      match CartRepo.add_item_to_cart db cart_id product_id quantity with
      | none => .error (.badRequest,
          "Failed to add item to cart. Product may not exist or insufficient stock.")
      | some r => .ok r

/-- Number of cart item rows for a (cart_id, product_id) pair. -/
def pairCount (db : DB) (cart_id product_id : Nat) : Nat :=
  (db.cart_items.filter
    (fun it => it.cart_id = cart_id && it.product_id = product_id)).length

/-- app/models/category.py `Category` (the columns the hierarchy logic
reads). -/
structure Category where
  id : Nat
  parent_id : Option Nat
  is_active : Bool
deriving Repr, DecidableEq

/-- Repository get-by-id on the categories table. -/
def getCategory (cats : List Category) (i : Nat) : Option Category :=
  cats.find? (fun c => c.id = i)

/-- One step up the tree: the parent id of category `i`, `none` when `i`
does not resolve or has a null parent. -/
def parentOf (cats : List Category) (i : Nat) : Option Nat :=
  (getCategory cats i).bind Category.parent_id

/-- The loop body of `_would_create_cycle`, made structural with a fuel
parameter: walk up from `current`, stopping on a revisit, on the target
(cycle found), or on a missing or null parent. -/
def walkAux (cats : List Category) (target : Nat) :
    Nat → Nat → List Nat → Bool
  | 0, _, _ => false
  | fuel + 1, current, visited =>
    if current ∈ visited then false
    else if current = target then true
    else
      match parentOf cats current with
      | none => false
      | some p => walkAux cats target fuel p (current :: visited)

/-- app/services/category_service.py `_would_create_cycle`: the walk needs
at most one step per distinct category id, so `cats.length + 1` fuel is
enough (proved below as part of the termination claim). -/
def _would_create_cycle (cats : List Category) (category_id new_parent_id : Nat) : Bool :=
  walkAux cats category_id (cats.length + 1) new_parent_id []

/-- Persisting a parent reassignment. -/
def setParent (cats : List Category) (cid pid : Nat) : List Category :=
  cats.map (fun c => if c.id = cid then { c with parent_id := some pid } else c)

/-- The parent-reassignment path of app/services/category_service.py
`update_category` (an update whose patch sets `parent_id` to a non-null
`new_parent_id`): the category must exist, may not become its own parent,
the new parent must exist and be active, and the cycle check must pass. -/
def update_category_parent (cats : List Category) (category_id new_parent_id : Nat) :
    Except Err (List Category) :=
  match getCategory cats category_id with
  | none => .error (.notFound, "Category not found")
  | some _ =>
    if new_parent_id = category_id then
      .error (.badRequest, "Category cannot be its own parent")
    else
      match getCategory cats new_parent_id with
      | none => .error (.notFound, "Parent category not found")
      | some new_parent =>
        if !new_parent.is_active then
          .error (.badRequest, "Parent category is not active")
        else if _would_create_cycle cats category_id new_parent_id then
          .error (.badRequest, "Cannot set parent: would create a circular reference")
        else .ok (setParent cats category_id new_parent_id)

/-- `iterParent cats k i`: the category id reached from `i` after `k`
parent steps, `none` as soon as a null (or dangling) parent is passed. -/
def iterParent (cats : List Category) : Nat → Nat → Option Nat
  | 0, i => some i
  | k + 1, i =>
    match parentOf cats i with
    | none => none
    | some p => iterParent cats k p

/-- Every non-null parent reference resolves to a category of the list
(the well-formedness half of being a forest). -/
def parentsResolve (cats : List Category) : Bool :=
  cats.all (fun c =>
    match c.parent_id with
    | none => true
    | some p => cats.any (fun c2 => c2.id = p))

/-- The acyclicity property exactly as the spec states it: repeatedly
following parent_id from any category terminates at a null parent within
`|categories|` steps. -/
def acyclicB (cats : List Category) : Bool :=
  cats.all (fun c => (iterParent cats cats.length c.id).isNone)

/-! ## Helper facts for evaluating the embedded string-keyed operations -/

theorem opAddEqAdd : ("add" = "add") = True := by simp

theorem opSubtractNeAdd : ¬ ("subtract" = "add") := by decide

theorem opSubtractEqSubtract : ("subtract" = "subtract") = True := by simp

/-- The database state the caller observes after a domain call: the new
state on success, the unchanged pre-call state when the operation raised
(the surrounding transaction aborts before anything is flushed). -/
def committedState (r : Except Err (DB × Order)) (db : DB) : DB :=
  match r with
  | .ok (db1, _) => db1
  | .error _ => db

/-! ## C1: the documented checkout scenario -/

def c1ProductA : Product :=
  { id := 1, name := "A", sku := "SKU-A", price := 50, sale_price := none,
    stock_quantity := 10, min_stock_level := 5, is_active := true }

def c1ProductB : Product :=
  { id := 2, name := "B", sku := "SKU-B", price := 30, sale_price := none,
    stock_quantity := 1, min_stock_level := 5, is_active := true }

def c1DB : DB :=
  { products := [c1ProductA, c1ProductB], orders := [], carts := [], cart_items := [] }

def c1Cart : Cart :=
  { id := 1, user_id := some 7, is_active := true,
    items := [{ cart_id := 1, product_id := 1, quantity := 2, unit_price := 50 },
              { cart_id := 1, product_id := 2, quantity := 1, unit_price := 30 }] }

def c1User : User := { id := 7, is_superuser := false }

def c1OrderData : OrderCreate :=
  { shipping_address := "addr", shipping_city := "city", shipping_country := "country",
    shipping_postal_code := "00000", shipping_phone := none, billing_address := none,
    billing_city := none, billing_country := none, billing_postal_code := none,
    notes := none, payment_method := none, items := [] }

/-- Claim C1, counterexample: on the claimed cart (product A price 50
stock 10 at quantity 2, product B price 30 stock 1 at quantity 1) the
subtotal is 130, which is not below 100, so `create_order_from_cart`
computes shipping 0 and total 157.30 — not the claimed shipping 10 and
total 167.30. -/
theorem c1_counterexample :
    (match create_order_from_cart c1DB c1Cart c1User c1OrderData "ORD-1" 1 with
     | .ok (_, o) =>
        o.shipping_cost = 0 ∧ o.total_amount = 1573/10 ∧
        ¬ (o.shipping_cost = 10 ∧ o.total_amount = 1673/10)
     | .error _ => False) := by
  norm_num [create_order_from_cart, validateCartItems, findProduct, Cart.total_amount,
    CartItem.subtotal, _calculate_tax, _calculate_shipping, _update_product_stock,
    update_stock, DB.setProduct, mkOrderItemFromCart, stockOf, c1DB, c1Cart, c1User,
    c1OrderData, c1ProductA, c1ProductB, List.cons_ne_nil, opSubtractNeAdd]

/-- Claim C1, amended: for the cart with product A (price 50, stock 10)
at quantity 2 and product B (price 30, stock 1) at quantity 1,
`create_order_from_cart` produces an order with subtotal 130,
tax 27.30, shipping 0 (because the subtotal is at least 100),
total 157.30, and afterwards the stock of product A is 8 and of
product B is 0. -/
theorem c1_scenario_amended :
    (match create_order_from_cart c1DB c1Cart c1User c1OrderData "ORD-1" 1 with
     | .ok (db1, o) =>
        o.subtotal = 130 ∧ o.tax_amount = 273/10 ∧ o.shipping_cost = 0 ∧
        o.total_amount = 1573/10 ∧ stockOf db1 1 = some 8 ∧ stockOf db1 2 = some 0
     | .error _ => False) := by
  norm_num [create_order_from_cart, validateCartItems, findProduct, Cart.total_amount,
    CartItem.subtotal, _calculate_tax, _calculate_shipping, _update_product_stock,
    update_stock, DB.setProduct, mkOrderItemFromCart, stockOf, c1DB, c1Cart, c1User,
    c1OrderData, c1ProductA, c1ProductB, List.cons_ne_nil, opSubtractNeAdd]

/-! ## Generic lemmas about row updates -/

/-- Replacing the rows of a given id changes exactly the lookup of that id. -/
theorem find_map_replace (l : List Product) (p : Product) (x : Nat) :
    (l.map (fun q => if q.id = p.id then p else q)).find? (fun q => q.id = x) =
      if x = p.id then (l.find? (fun q => q.id = x)).map (fun _ => p)
      else l.find? (fun q => q.id = x) := by
  induction l with
  | nil => simp
  | cons q l ih =>
    simp only [List.map_cons]
    by_cases hq : q.id = p.id
    · by_cases hx : x = p.id
      · subst hx
        simp [List.find?, hq]
      · have hpx : ¬ (p.id = x) := fun h => hx h.symm
        have hqx : ¬ (q.id = x) := by
          rw [hq]
          exact hpx
        simp [List.find?, hq, hpx, hqx, hx, ih]
    · by_cases hqx : q.id = x
      · have hx : ¬ (x = p.id) := fun h => hq (hqx.trans h)
        simp [List.find?, hq, hqx, hx]
      · simp [List.find?, hq, hqx, ih]

/-- `findProduct` after `setProduct`. -/
theorem findProduct_setProduct (db : DB) (p : Product) (x : Nat) :
    findProduct (db.setProduct p) x =
      if x = p.id then (findProduct db x).map (fun _ => p)
      else findProduct db x := by
  simpa [findProduct, DB.setProduct] using find_map_replace db.products p x

/-- `stockOf` after `setProduct`. -/
theorem stockOf_setProduct (db : DB) (p : Product) (x : Nat) :
    stockOf (db.setProduct p) x =
      if x = p.id then (stockOf db x).map (fun _ => p.stock_quantity)
      else stockOf db x := by
  unfold stockOf
  rw [findProduct_setProduct]
  by_cases hx : x = p.id
  · simp only [if_pos hx]
    cases findProduct db x <;> simp
  · simp only [if_neg hx]

/-! ## C8: the Stock Ledger contract -/

/-- Claim C8: for an existing product the Stock Ledger `update_stock`
sets the stock to old + q for operation add, to max(0, old - q) for
operation subtract (never failing on underflow, so the resulting stock of
a subtract or set is always nonnegative), and to max(0, q) for operation
set; when the product id does not resolve it fails for every operation
(the repository returns None, which the calling service surfaces as
NotFound). -/
theorem c8_update_stock_contract (db : DB) (pid : Nat) (q : Int) :
    (findProduct db pid = none → ∀ op, update_stock db pid q op = none)
    ∧ (∀ p, findProduct db pid = some p →
        (∃ r, update_stock db pid q "add" = some r ∧
          r.2.stock_quantity = p.stock_quantity + q ∧
          stockOf r.1 pid = some (p.stock_quantity + q))
      ∧ (∃ r, update_stock db pid q "subtract" = some r ∧
          r.2.stock_quantity = max 0 (p.stock_quantity - q) ∧
          stockOf r.1 pid = some (max 0 (p.stock_quantity - q)) ∧
          0 ≤ r.2.stock_quantity)
      ∧ (∃ r, update_stock db pid q "set" = some r ∧
          r.2.stock_quantity = max 0 q ∧
          stockOf r.1 pid = some (max 0 q) ∧
          0 ≤ r.2.stock_quantity)) := by
  constructor
  · intro hnone op
    simp [update_stock, hnone]
  · intro p hp
    have hid : p.id = pid := by
      have := List.find?_some hp
      simpa using this
    have hstock : stockOf db pid = some p.stock_quantity := by
      simp [stockOf, hp]
    have hadd : update_stock db pid q "add" =
        some (db.setProduct { p with stock_quantity := p.stock_quantity + q },
              { p with stock_quantity := p.stock_quantity + q }) := by
      simp [update_stock, hp]
    have hsub : update_stock db pid q "subtract" =
        some (db.setProduct { p with stock_quantity := max 0 (p.stock_quantity - q) },
              { p with stock_quantity := max 0 (p.stock_quantity - q) }) := by
      simp [update_stock, hp, opSubtractNeAdd]
    have hset : update_stock db pid q "set" =
        some (db.setProduct { p with stock_quantity := max 0 q },
              { p with stock_quantity := max 0 q }) := by
      simp [update_stock, hp]
    refine ⟨⟨_, hadd, rfl, ?_⟩, ⟨_, hsub, rfl, ?_, le_max_left 0 _⟩,
      ⟨_, hset, rfl, ?_, le_max_left 0 _⟩⟩ <;>
      simp [stockOf_setProduct, hid, hstock]

def c8DB : DB :=
  { products := [{ id := 3, name := "W", sku := "SKU-W", price := 5,
                   sale_price := none, stock_quantity := 4,
                   min_stock_level := 1, is_active := true }],
    orders := [], carts := [], cart_items := [] }

def c8Prod : Product :=
  { id := 3, name := "W", sku := "SKU-W", price := 5, sale_price := none,
    stock_quantity := 4, min_stock_level := 1, is_active := true }

/-- Witness for C8 at a concrete product: subtracting 9 from stock 4
floors at 0 rather than failing. -/
theorem c8_witness :
    ∃ r, update_stock c8DB 3 9 "subtract" = some r ∧
      r.2.stock_quantity = max 0 ((4 : Int) - 9) ∧
      stockOf r.1 3 = some (max 0 ((4 : Int) - 9)) ∧
      0 ≤ r.2.stock_quantity :=
  ((c8_update_stock_contract c8DB 3 9).2 c8Prod rfl).2.1

/-! ## C6: create_order_direct performs no stock decrement -/

/-- A successful direct-item validation run means every requested item
resolved to an active product with sufficient stock. -/
theorem validateDirectItems_ok_valid (db : DB) :
    ∀ (items : List OrderItemCreate) (acc t : ℚ) (vs : List ValidatedItem),
      validateDirectItems db acc items = .ok (t, vs) →
      ∀ it ∈ items, ∃ p, findProduct db it.product_id = some p ∧
        p.is_active = true ∧ it.quantity ≤ p.stock_quantity := by
  intro items
  induction items with
  | nil => intro acc t vs _ it hit; cases hit
  | cons hd rest ih =>
    intro acc t vs hok it hit
    rw [validateDirectItems] at hok
    cases hp : findProduct db hd.product_id with
    | none => rw [hp] at hok; cases hok
    | some p =>
      rw [hp] at hok
      by_cases hact : p.is_active
      · by_cases hstock : p.stock_quantity < hd.quantity
        · simp [hact, hstock] at hok
        · simp only [hact, Bool.not_true, Bool.false_eq_true, if_false,
            if_neg hstock] at hok
          rcases hrec : validateDirectItems db
              (acc + p.current_price * (hd.quantity : ℚ)) rest with e | tv
          · rw [hrec] at hok; cases hok
          · obtain ⟨t2, vs2⟩ := tv
            rw [hrec] at hok
            cases hit with
            | head => exact ⟨p, hp, hact, le_of_not_lt hstock⟩
            | tail _ hmem => exact ih _ t2 vs2 hrec it hmem
      · simp [hact] at hok

def c6DB : DB :=
  { products := [{ id := 4, name := "D", sku := "SKU-D", price := 20,
                   sale_price := none, stock_quantity := 6,
                   min_stock_level := 1, is_active := true }],
    orders := [], carts := [], cart_items := [] }

def c6User : User := { id := 9, is_superuser := false }

def c6OrderData : OrderCreate :=
  { shipping_address := "addr", shipping_city := "city", shipping_country := "country",
    shipping_postal_code := "00000", shipping_phone := none, billing_address := none,
    billing_city := none, billing_country := none, billing_postal_code := none,
    notes := none, payment_method := none,
    items := [{ product_id := 4, quantity := 2 }] }

/-- Whether a domain call succeeded. -/
def exceptIsOk : Except Err (DB × Order) → Bool
  | .ok _ => true
  | .error _ => false

/-- Claim C6: a successful `create_order_direct` leaves every product row
(and hence every stock_quantity) unchanged — no stock decrement follows
the persistence of the order, even though each item was validated against
stock — and such successful calls exist (second conjunct, witnessed at a
concrete input). -/
theorem c6_create_direct_no_stock_change :
    (∀ db user od n oid,
      match create_order_direct db user od n oid with
      | .ok (db1, _) =>
          db1.products = db.products ∧ db1.carts = db.carts ∧
          db1.cart_items = db.cart_items ∧
          ∀ it ∈ od.items, ∃ p, findProduct db it.product_id = some p ∧
            p.is_active = true ∧ it.quantity ≤ p.stock_quantity
      | .error _ => True)
    ∧ exceptIsOk (create_order_direct c6DB c6User c6OrderData "ORD-6" 1) = true := by
  constructor
  · intro db user od n oid
    cases hres : create_order_direct db user od n oid with
    | error e => exact trivial
    | ok r =>
      obtain ⟨db1, o⟩ := r
      rw [create_order_direct] at hres
      by_cases hempty : od.items = []
      · rw [if_pos hempty] at hres; cases hres
      · rw [if_neg hempty] at hres
        rcases hval : validateDirectItems db 0 od.items with e | tv
        · rw [hval] at hres; cases hres
        · obtain ⟨t, vs⟩ := tv
          rw [hval] at hres
          simp only [Except.ok.injEq, Prod.mk.injEq] at hres
          obtain ⟨hdb, _⟩ := hres
          subst hdb
          exact ⟨rfl, rfl, rfl,
            validateDirectItems_ok_valid db od.items 0 t vs hval⟩
  · norm_num [create_order_direct, validateDirectItems, findProduct,
      Product.current_price, _calculate_tax, _calculate_shipping_direct,
      exceptIsOk, c6DB, c6User, c6OrderData, List.cons_ne_nil]

/-! ## C3: terminal order statuses -/

def c3Order : Order :=
  { id := 1, order_number := "ORD-3", user_id := 7, status := .refunded,
    payment_status := .refunded, subtotal := 100, tax_amount := 21,
    shipping_cost := 0, discount_amount := 0, total_amount := 121,
    shipping_address := "addr", shipping_city := "city",
    shipping_country := "country", shipping_postal_code := "00000",
    shipping_phone := none, billing_address := none, billing_city := none,
    billing_country := none, billing_postal_code := none, notes := none,
    tracking_number := none, payment_method := none, payment_reference := none,
    shipped_at := none, delivered_at := none, items := [] }

def c3DB : DB :=
  { products := [], orders := [c3Order], carts := [], cart_items := [] }

/-- Claim C3, counterexample: REFUNDED is listed as terminal, yet
`cancel_order` accepts a REFUNDED order (its guards only reject SHIPPED,
DELIVERED and CANCELLED) and changes its status to CANCELLED. -/
theorem c3_counterexample :
    (match cancel_order c3DB 1 none none with
     | .ok (_, o) => o.status = .cancelled
     | .error _ => False)
    ∧ (findOrder c3DB 1).map Order.status = some .refunded := by
  constructor
  · simp [cancel_order, findOrder, cancelForbidden, c3DB, c3Order,
      _restore_product_stock, DB.setOrder]
  · simp [findOrder, c3DB, c3Order]

/-- Claim C3, amended: for an order in DELIVERED or CANCELLED state no
domain operation changes its status (update_order_status and cancel_order
fail, update_payment_status leaves the status unchanged); for an order in
REFUNDED state update_order_status fails and update_payment_status leaves
the status unchanged, but cancel_order by an authorized actor succeeds
and changes the status to CANCELLED. -/
theorem c3_terminal_amended (db : DB) (oid : Nat) (order : Order)
    (hord : findOrder db oid = some order) :
    ((order.status = .delivered ∨ order.status = .cancelled ∨ order.status = .refunded) →
      (∀ ns u now, ∃ e, update_order_status db oid ns u now = .error e)
      ∧ (∀ nps ref u, match update_payment_status db oid nps ref u with
          | .ok (_, o) => o.status = order.status
          | .error _ => True))
    ∧ ((order.status = .delivered ∨ order.status = .cancelled) →
        ∀ reason user, ∃ e, cancel_order db oid reason user = .error e)
    ∧ (order.status = .refunded →
        ∀ reason user, cancelForbidden order user = false →
          ∃ r, cancel_order db oid reason user = .ok r ∧ r.2.status = .cancelled) := by
  refine ⟨?_, ?_, ?_⟩
  · intro hterm
    constructor
    · intro ns u now
      rw [update_order_status, hord]
      by_cases hsu : u.is_superuser
      · have hval : _is_valid_status_transition order.status ns = false := by
          rcases hterm with h | h | h <;> rw [h] <;> rfl
        simp only [hsu, Bool.not_true, Bool.false_eq_true, if_false, hval,
          Bool.not_false, if_true]
        exact ⟨_, rfl⟩
      · simp only [eq_false_of_ne_true hsu, Bool.not_false, if_true]
        exact ⟨_, rfl⟩
    · intro nps ref u
      have hpend : ¬ (order.status = .pending) := by
        rcases hterm with h | h | h <;> rw [h] <;> simp
      rw [update_payment_status.eq_def, hord]
      cases u with
      | none =>
        simp only [Bool.false_eq_true, if_false]
        rw [if_neg (fun hc => hpend hc.2)]
        split <;> rfl
      | some u0 =>
        by_cases hsu : u0.is_superuser
        · simp only [hsu, Bool.not_true, Bool.false_eq_true, if_false]
          rw [if_neg (fun hc => hpend hc.2)]
          split <;> rfl
        · simp only [eq_false_of_ne_true hsu, Bool.not_false, if_true]
  · intro hterm reason user
    rw [cancel_order, hord]
    by_cases hforb : cancelForbidden order user
    · simp only [hforb, if_true]
      exact ⟨_, rfl⟩
    · simp only [eq_false_of_ne_true hforb, Bool.false_eq_true, if_false]
      rcases hterm with h | h
      · rw [if_pos (Or.inr h)]
        exact ⟨_, rfl⟩
      · have hnsd : ¬ (order.status = .shipped ∨ order.status = .delivered) := by
          rw [h]; simp
        rw [if_neg hnsd, if_pos h]
        exact ⟨_, rfl⟩
  · intro hterm reason user hforb
    rw [cancel_order, hord]
    have hnsd : ¬ (order.status = .shipped ∨ order.status = .delivered) := by
      rw [hterm]; simp
    have hnc : ¬ (order.status = .cancelled) := by
      rw [hterm]; simp
    have hncp : ¬ (order.status = .confirmed ∨ order.status = .processing) := by
      rw [hterm]; simp
    simp only [hforb, Bool.false_eq_true, if_false, if_neg hnsd, if_neg hnc,
      if_neg hncp]
    exact ⟨_, rfl, rfl⟩

/-- Witness for C3 (amended): the concrete REFUNDED order above is
cancelled successfully, ending CANCELLED. -/
theorem c3_witness :
    ∃ r, cancel_order c3DB 1 none none = .ok r ∧ r.2.status = .cancelled :=
  (c3_terminal_amended c3DB 1 c3Order rfl).2.2 rfl none none rfl

/-! ## C4: the order status transition table -/

/-- The transition table exactly as the claim lists it. -/
def claimedOrderTransitions : List (OrderStatus × OrderStatus) :=
  [(.pending, .confirmed), (.pending, .cancelled),
   (.confirmed, .processing), (.confirmed, .cancelled),
   (.processing, .shipped), (.processing, .cancelled),
   (.shipped, .delivered)]

/-- The source transition check agrees with the claimed table. -/
theorem transition_table_bridge (a b : OrderStatus) :
    _is_valid_status_transition a b = true ↔ (a, b) ∈ claimedOrderTransitions := by
  cases a <;> cases b <;> decide

/-- Claim C4: for an existing order and a privileged actor,
`update_order_status` succeeds exactly when (current status, new status)
is in the claimed transition table and fails with BadRequest otherwise;
a transition out of DELIVERED is always rejected; on success the new
status is stored, shipped_at is set (to the call time) only if not
already set when moving to SHIPPED, and delivered_at only if not already
set when moving to DELIVERED. -/
theorem c4_update_order_status_contract (db : DB) (oid : Nat)
    (ns : OrderStatus) (now : Nat) (u : User) (order : Order)
    (hord : findOrder db oid = some order) (hsu : u.is_superuser = true) :
    ((∃ r, update_order_status db oid ns u now = .ok r) ↔
        (order.status, ns) ∈ claimedOrderTransitions)
    ∧ ((order.status, ns) ∉ claimedOrderTransitions →
        ∃ msg, update_order_status db oid ns u now = .error (.badRequest, msg))
    ∧ (order.status = .delivered →
        ∃ msg, update_order_status db oid ns u now = .error (.badRequest, msg))
    ∧ (match update_order_status db oid ns u now with
       | .ok (_, o) =>
           o.status = ns
         ∧ (ns = .shipped →
             o.shipped_at =
               (if order.shipped_at = none then some now else order.shipped_at))
         ∧ (ns = .delivered →
             o.delivered_at =
               (if order.delivered_at = none then some now else order.delivered_at))
       | .error _ => True) := by
  rw [update_order_status, hord]
  simp only [hsu, Bool.not_true, Bool.false_eq_true, if_false]
  by_cases hv : _is_valid_status_transition order.status ns
  · simp only [hv, Bool.not_true, Bool.false_eq_true, if_false]
    refine ⟨?_, ?_, ?_, ?_⟩
    · simp only [Except.ok.injEq]
      exact ⟨fun _ => (transition_table_bridge _ _).mp hv,
             fun _ => ⟨_, rfl⟩⟩
    · intro hmem
      exact absurd ((transition_table_bridge _ _).mp hv) hmem
    · intro hdel
      rw [hdel] at hv
      exact absurd hv (by rw [_is_valid_status_transition]; simp)
    · refine ⟨?_, ?_, ?_⟩
      · split_ifs <;> rfl
      · intro hns
        subst hns
        by_cases hsa : order.shipped_at = none
        · rw [if_pos ⟨rfl, hsa⟩, if_pos hsa]
        · rw [if_neg (fun hc => hsa hc.2),
            if_neg (fun hc => OrderStatus.noConfusion hc.1), if_neg hsa]
      · intro hns
        subst hns
        by_cases hda : order.delivered_at = none
        · rw [if_neg (fun hc => OrderStatus.noConfusion hc.1),
            if_pos ⟨rfl, hda⟩, if_pos hda]
        · rw [if_neg (fun hc => OrderStatus.noConfusion hc.1),
            if_neg (fun hc => hda hc.2), if_neg hda]
  · simp only [eq_false_of_ne_true hv, Bool.not_false, if_true]
    refine ⟨?_, ?_, ?_, trivial⟩
    · constructor
      · rintro ⟨r, hr⟩
        cases hr
      · intro hmem
        exact absurd ((transition_table_bridge _ _).mpr hmem)
          (fun h => hv h)
    · intro _
      exact ⟨_, rfl⟩
    · intro _
      exact ⟨_, rfl⟩

def c4Order : Order :=
  { id := 2, order_number := "ORD-4", user_id := 7, status := .processing,
    payment_status := .paid, subtotal := 10, tax_amount := 21/10,
    shipping_cost := 10, discount_amount := 0, total_amount := 221/10,
    shipping_address := "addr", shipping_city := "city",
    shipping_country := "country", shipping_postal_code := "00000",
    shipping_phone := none, billing_address := none, billing_city := none,
    billing_country := none, billing_postal_code := none, notes := none,
    tracking_number := none, payment_method := none, payment_reference := none,
    shipped_at := none, delivered_at := none, items := [] }

def c4DB : DB :=
  { products := [], orders := [c4Order], carts := [], cart_items := [] }

def c4Admin : User := { id := 1, is_superuser := true }

/-- Witness for C4: a PROCESSING order moved to SHIPPED by an admin
succeeds (the pair is in the table) and sets shipped_at once. -/
theorem c4_witness :
    ((∃ r, update_order_status c4DB 2 .shipped c4Admin 1111 = .ok r) ↔
        (c4Order.status, OrderStatus.shipped) ∈ claimedOrderTransitions)
    ∧ ((c4Order.status, OrderStatus.shipped) ∉ claimedOrderTransitions →
        ∃ msg, update_order_status c4DB 2 .shipped c4Admin 1111 =
          .error (.badRequest, msg))
    ∧ (c4Order.status = .delivered →
        ∃ msg, update_order_status c4DB 2 .shipped c4Admin 1111 =
          .error (.badRequest, msg))
    ∧ (match update_order_status c4DB 2 .shipped c4Admin 1111 with
       | .ok (_, o) =>
           o.status = .shipped
         ∧ (OrderStatus.shipped = .shipped →
             o.shipped_at =
               (if c4Order.shipped_at = none then some 1111 else c4Order.shipped_at))
         ∧ (OrderStatus.shipped = .delivered →
             o.delivered_at =
               (if c4Order.delivered_at = none then some 1111 else c4Order.delivered_at))
       | .error _ => True) :=
  c4_update_order_status_contract c4DB 2 .shipped 1111 c4Admin c4Order rfl rfl

/-! ## C2: cancelling restores stock for CONFIRMED/PROCESSING only -/

/-- A Stock Ledger add on a resolving product succeeds and raises exactly
that product's stock by the quantity. -/
theorem stockOf_update_add (db : DB) (pid2 : Nat) (q : Int) (p : Product)
    (hfp : findProduct db pid2 = some p) :
    ∃ d2 p2, update_stock db pid2 q "add" = some (d2, p2) ∧
      ∀ x, stockOf d2 x =
        if x = pid2 then some (p.stock_quantity + q) else stockOf db x := by
  have hid : p.id = pid2 := by
    have := List.find?_some hfp
    simpa using this
  rw [update_stock, hfp]
  refine ⟨_, _, rfl, ?_⟩
  intro x
  rw [stockOf_setProduct]
  by_cases hx : x = pid2
  · rw [if_pos (show x = _ by simpa using hx.trans hid.symm), if_pos hx]
    have hs : stockOf db x = some p.stock_quantity := by
      simp [stockOf, hx, hfp]
    rw [hs]
    simp
  · rw [if_neg (fun hc => hx (by simpa [hid] using hc)), if_neg hx]

/-- Total quantity the order items hold for one product. -/
def restoredQty (items : List OrderItem) (pid : Nat) : Int :=
  ((items.filter (fun it => it.product_id = pid)).map OrderItem.quantity).sum

/-- Restoring stock adds, per product, the summed quantities of the order
items referencing it (an item whose product no longer resolves is
skipped, and such a product has no stock to observe either way). -/
theorem stockOf_restore (items : List OrderItem) : ∀ (db : DB) (pid : Nat),
    stockOf (_restore_product_stock db items) pid =
      (stockOf db pid).map (fun s => s + restoredQty items pid) := by
  induction items with
  | nil =>
    intro db pid
    rw [_restore_product_stock]
    simp only [List.foldl_nil, restoredQty, List.filter_nil, List.map_nil,
      List.sum_nil]
    cases stockOf db pid <;> simp
  | cons it rest ih =>
    intro db pid
    have hstep : _restore_product_stock db (it :: rest) =
        _restore_product_stock
          (match update_stock db it.product_id it.quantity "add" with
           | none => db
           | some (d2, _) => d2) rest := rfl
    have hrq : restoredQty (it :: rest) pid =
        (if it.product_id = pid then it.quantity else 0) + restoredQty rest pid := by
      by_cases hpid : it.product_id = pid
      · simp [restoredQty, List.filter_cons, hpid]
      · simp [restoredQty, List.filter_cons, hpid]
    rw [hstep]
    cases hfp : findProduct db it.product_id with
    | none =>
      have hup : update_stock db it.product_id it.quantity "add" = none := by
        rw [update_stock, hfp]
      rw [hup, ih, hrq]
      by_cases hpid : it.product_id = pid
      · have hnone : stockOf db pid = none := by
          rw [← hpid]
          simp [stockOf, hfp]
        simp [hnone]
      · simp only [if_neg hpid, zero_add]
    | some p =>
      obtain ⟨d2, p2, hup, hstocks⟩ :=
        stockOf_update_add db it.product_id it.quantity p hfp
      rw [hup, ih, hstocks, hrq]
      by_cases hpid : pid = it.product_id
      · have hs : stockOf db pid = some p.stock_quantity := by
          simp [stockOf, hpid, hfp]
        rw [if_pos hpid, if_pos hpid.symm, hs]
        simp [add_assoc]
      · rw [if_neg hpid, if_neg (fun h => hpid h.symm)]
        simp only [zero_add]

/-- Claim C2: with an existing order and an authorized actor,
`cancel_order` fails with BadRequest when the status is SHIPPED,
DELIVERED or CANCELLED; on a CONFIRMED or PROCESSING order it succeeds,
adds every item quantity back to that product's stock (via the Stock
Ledger add operation), sets the status to CANCELLED and appends the
reason to the notes; on a PENDING order it succeeds and changes no
product row. -/
theorem c2_cancel_order_contract (db : DB) (oid : Nat)
    (reason : Option String) (user : Option User) (order : Order)
    (hord : findOrder db oid = some order)
    (hauth : cancelForbidden order user = false) :
    ((order.status = .shipped ∨ order.status = .delivered ∨
        order.status = .cancelled) →
      ∃ msg, cancel_order db oid reason user = .error (.badRequest, msg))
    ∧ ((order.status = .confirmed ∨ order.status = .processing) →
      ∃ r, cancel_order db oid reason user = .ok r ∧
        (∀ pid, stockOf r.1 pid =
          (stockOf db pid).map (fun s => s + restoredQty order.items pid)) ∧
        r.2.status = .cancelled ∧
        r.2.notes = some (((order.notes.getD "") ++ "\nCancelled: "
          ++ pyStrOr reason "No reason provided").trim))
    ∧ (order.status = .pending →
      ∃ r, cancel_order db oid reason user = .ok r ∧
        r.1.products = db.products ∧ r.2.status = .cancelled ∧
        r.2.notes = some (((order.notes.getD "") ++ "\nCancelled: "
          ++ pyStrOr reason "No reason provided").trim)) := by
  rw [cancel_order, hord]
  simp only [hauth, Bool.false_eq_true, if_false]
  refine ⟨?_, ?_, ?_⟩
  · rintro (h | h | h)
    · rw [if_pos (Or.inl h)]
      exact ⟨_, rfl⟩
    · rw [if_pos (Or.inr h)]
      exact ⟨_, rfl⟩
    · have hnsd : ¬ (order.status = .shipped ∨ order.status = .delivered) := by
        rw [h]; simp
      rw [if_neg hnsd, if_pos h]
      exact ⟨_, rfl⟩
  · intro hcp
    have hnsd : ¬ (order.status = .shipped ∨ order.status = .delivered) := by
      rcases hcp with h | h <;> rw [h] <;> simp
    have hnc : ¬ (order.status = .cancelled) := by
      rcases hcp with h | h <;> rw [h] <;> simp
    rw [if_neg hnsd, if_neg hnc, if_pos hcp]
    refine ⟨_, rfl, ?_, rfl, rfl⟩
    intro pid
    exact stockOf_restore order.items db pid
  · intro hp
    have hnsd : ¬ (order.status = .shipped ∨ order.status = .delivered) := by
      rw [hp]; simp
    have hnc : ¬ (order.status = .cancelled) := by
      rw [hp]; simp
    have hncp : ¬ (order.status = .confirmed ∨ order.status = .processing) := by
      rw [hp]; simp
    rw [if_neg hnsd, if_neg hnc, if_neg hncp]
    exact ⟨_, rfl, rfl, rfl, rfl⟩

def c2Product : Product :=
  { id := 11, name := "P", sku := "SKU-P", price := 10, sale_price := none,
    stock_quantity := 5, min_stock_level := 1, is_active := true }

def c2Order : Order :=
  { id := 6, order_number := "ORD-2", user_id := 7, status := .confirmed,
    payment_status := .paid, subtotal := 20, tax_amount := 21/5,
    shipping_cost := 10, discount_amount := 0, total_amount := 171/5,
    shipping_address := "addr", shipping_city := "city",
    shipping_country := "country", shipping_postal_code := "00000",
    shipping_phone := none, billing_address := none, billing_city := none,
    billing_country := none, billing_postal_code := none, notes := none,
    tracking_number := none, payment_method := none, payment_reference := none,
    shipped_at := none, delivered_at := none,
    items := [{ order_id := 6, product_id := 11, product_name := "P",
                product_sku := "SKU-P", quantity := 2, unit_price := 10,
                total_price := 20 }] }

def c2DB : DB :=
  { products := [c2Product], orders := [c2Order], carts := [], cart_items := [] }

/-- Witness for C2: cancelling the concrete CONFIRMED order succeeds,
restores the item quantity onto each product stock, and marks the order
CANCELLED with the reason appended to the notes. -/
theorem c2_witness :
    ∃ r, cancel_order c2DB 6 none none = .ok r ∧
      (∀ pid, stockOf r.1 pid =
        (stockOf c2DB pid).map (fun s => s + restoredQty c2Order.items pid)) ∧
      r.2.status = .cancelled ∧
      r.2.notes = some (((c2Order.notes.getD "") ++ "\nCancelled: "
        ++ pyStrOr none "No reason provided").trim) :=
  (c2_cancel_order_contract c2DB 6 none none c2Order rfl rfl).2.1 (Or.inl rfl)

/-! ## C5: insufficient stock aborts order creation with no state change -/

/-- Whether a cart item passes the per-item validation of
`create_order_from_cart`: its product resolves, is active, and has stock
covering the quantity. -/
def cartItemAvailable (db : DB) (it : CartItem) : Bool :=
  match findProduct db it.product_id with
  | none => false
  | some p => p.is_active && decide (it.quantity ≤ p.stock_quantity)

/-- If any cart item fails validation, the validation loop raises
BadRequest (at the first failing item). -/
theorem validateCartItems_error (db : DB) :
    ∀ items : List CartItem, (∃ it ∈ items, cartItemAvailable db it = false) →
      ∃ msg, validateCartItems db items = .error (.badRequest, msg) := by
  intro items
  induction items with
  | nil => rintro ⟨it, hit, _⟩; cases hit
  | cons hd rest ih =>
    rintro ⟨it, hit, hfail⟩
    rw [validateCartItems]
    cases hfp : findProduct db hd.product_id with
    | none => exact ⟨_, rfl⟩
    | some p =>
      by_cases hact : p.is_active
      · by_cases hstock : p.stock_quantity < hd.quantity
        · simp only [hact, Bool.not_true, Bool.false_eq_true, if_false,
            if_pos hstock]
          exact ⟨_, rfl⟩
        · simp only [hact, Bool.not_true, Bool.false_eq_true, if_false,
            if_neg hstock]
          cases hit with
          | head =>
            rw [cartItemAvailable, hfp] at hfail
            simp only [hact, Bool.true_and, decide_eq_false_iff_not,
              not_le] at hfail
            exact absurd hfail hstock
          | tail _ hmem => exact ih ⟨it, hmem, hfail⟩
      · simp only [eq_false_of_ne_true hact, Bool.not_false, if_true]
        exact ⟨_, rfl⟩

/-- Claim C5: when some cart item's quantity exceeds the product's current
stock (or the product is inactive or missing), `create_order_from_cart`
for the cart owner fails with BadRequest and the committed state is the
unchanged pre-call state: no order row and no stock change. -/
theorem c5_insufficient_stock_aborts (db : DB) (cart : Cart) (user : User)
    (od : OrderCreate) (n : String) (oid : Nat)
    (howner : cart.user_id = some user.id)
    (hbad : ∃ it ∈ cart.items, cartItemAvailable db it = false) :
    ∃ msg, create_order_from_cart db cart user od n oid =
        .error (.badRequest, msg) ∧
      committedState (create_order_from_cart db cart user od n oid) db = db := by
  have hne : cart.items ≠ [] := by
    rintro hnil
    obtain ⟨it, hit, _⟩ := hbad
    rw [hnil] at hit
    cases hit
  obtain ⟨msg, hval⟩ := validateCartItems_error db cart.items hbad
  refine ⟨msg, ?_, ?_⟩
  · rw [create_order_from_cart, if_neg hne, if_neg (fun hc => hc howner), hval]
  · rw [create_order_from_cart, if_neg hne, if_neg (fun hc => hc howner), hval,
      committedState]

def c5ProductA : Product :=
  { id := 1, name := "A", sku := "SKU-A", price := 50, sale_price := none,
    stock_quantity := 10, min_stock_level := 5, is_active := true }

def c5ProductB : Product :=
  { id := 2, name := "B", sku := "SKU-B", price := 30, sale_price := none,
    stock_quantity := 0, min_stock_level := 5, is_active := true }

def c5DB : DB :=
  { products := [c5ProductA, c5ProductB], orders := [], carts := [], cart_items := [] }

def c5Cart : Cart :=
  { id := 1, user_id := some 7, is_active := true,
    items := [{ cart_id := 1, product_id := 1, quantity := 2, unit_price := 50 },
              { cart_id := 1, product_id := 2, quantity := 1, unit_price := 30 }] }

def c5User : User := { id := 7, is_superuser := false }

def c5OrderData : OrderCreate :=
  { shipping_address := "addr", shipping_city := "city", shipping_country := "country",
    shipping_postal_code := "00000", shipping_phone := none, billing_address := none,
    billing_city := none, billing_country := none, billing_postal_code := none,
    notes := none, payment_method := none, items := [] }

/-- Witness for C5: the documented second scenario (product B out of
stock at checkout) aborts with BadRequest and commits nothing. -/
theorem c5_witness :
    ∃ msg, create_order_from_cart c5DB c5Cart c5User c5OrderData "ORD-5" 1 =
        .error (.badRequest, msg) ∧
      committedState (create_order_from_cart c5DB c5Cart c5User c5OrderData "ORD-5" 1)
        c5DB = c5DB :=
  c5_insufficient_stock_aborts c5DB c5Cart c5User c5OrderData "ORD-5" 1 rfl
    ⟨{ cart_id := 1, product_id := 2, quantity := 1, unit_price := 30 },
      by simp [c5Cart], by decide⟩

/-! ## C9: re-adding a product merges into one cart item row -/

/-- A list none of whose elements satisfies the predicate has no find. -/
theorem find?_none_of_all_false {α} (p : α → Bool) :
    ∀ l : List α, (∀ x ∈ l, p x = false) → l.find? p = none := by
  intro l h
  induction l with
  | nil => rfl
  | cons a l ih =>
    rw [List.find?]
    rw [h a (by simp)]
    exact ih (fun x hx => h x (by simp [hx]))

/-- Finding in an appended list skips a prefix with no match. -/
theorem find?_append_of_none {α} (p : α → Bool) :
    ∀ (l1 l2 : List α), (∀ x ∈ l1, p x = false) →
      (l1 ++ l2).find? p = l2.find? p := by
  intro l1
  induction l1 with
  | nil => intro l2 _; rfl
  | cons a l ih =>
    intro l2 h
    rw [List.cons_append, List.find?, h a (by simp)]
    exact ih l2 (fun x hx => h x (by simp [hx]))

/-- `updateFirstPair` skips a prefix with no matching row. -/
theorem updateFirstPair_append (cid pid : Nat) (q : Int) :
    ∀ (l : List CartItem) (l2 : List CartItem),
      (∀ x ∈ l, (decide (x.cart_id = cid) && decide (x.product_id = pid)) = false) →
      updateFirstPair (l ++ l2) cid pid q = l ++ updateFirstPair l2 cid pid q := by
  intro l
  induction l with
  | nil => intro l2 _; rfl
  | cons a l ih =>
    intro l2 h
    rw [List.cons_append, updateFirstPair]
    rw [if_neg (by simpa using h a (by simp))]
    rw [ih l2 (fun x hx => h x (by simp [hx])), List.cons_append]


/-- Finding the pair in a one-row list holding it. -/
theorem find?_singleton_pair (cid pid : Nat) (q : Int) (u : ℚ) :
    ([{ cart_id := cid, product_id := pid, quantity := q, unit_price := u }]
        : List CartItem).find?
      (fun it => it.cart_id = cid && it.product_id = pid) =
      some { cart_id := cid, product_id := pid, quantity := q, unit_price := u } := by
  simp [List.find?]

/-- Updating the pair in a one-row list holding it. -/
theorem updateFirstPair_singleton (cid pid : Nat) (q q2 : Int) (u : ℚ) :
    updateFirstPair
        [{ cart_id := cid, product_id := pid, quantity := q, unit_price := u }]
        cid pid q2 =
      [{ cart_id := cid, product_id := pid, quantity := q2, unit_price := u }] := by
  simp [updateFirstPair]

/-- Claim C9: with an existing cart, positive quantities and no prior row
for the (cart, product) pair: a missing-or-inactive product makes
`add_item_to_cart` fail with BadRequest; with an active product, a first
add with insufficient stock fails with BadRequest, otherwise it creates
exactly one row holding quantity q1 and the snapshotted current price;
a second add of the same product re-validates the combined quantity
q1 + q2 against the current stock — failing with BadRequest when it
exceeds stock and otherwise leaving exactly one row with quantity
q1 + q2. -/
theorem c9_add_item_merges (db : DB) (cid pid : Nat) (q1 q2 : Int)
    (hcart : (db.carts.find? (fun c => c.id = cid)).isSome = true)
    (hq1 : 0 < q1) (hq2 : 0 < q2)
    (hfresh : pairCount db cid pid = 0) :
    (db.products.find? (fun pr => pr.id = pid && pr.is_active) = none →
      ∃ msg, CartService.add_item_to_cart db cid pid q1 = .error (.badRequest, msg))
    ∧ (∀ p, db.products.find? (fun pr => pr.id = pid && pr.is_active) = some p →
        (p.stock_quantity < q1 →
          ∃ msg, CartService.add_item_to_cart db cid pid q1 =
            .error (.badRequest, msg))
        ∧ (q1 ≤ p.stock_quantity →
          ∃ db1 it1, CartService.add_item_to_cart db cid pid q1 = .ok (db1, it1)
          ∧ it1.quantity = q1 ∧ it1.unit_price = p.current_price
          ∧ pairCount db1 cid pid = 1
          ∧ (p.stock_quantity < q1 + q2 →
              ∃ msg, CartService.add_item_to_cart db1 cid pid q2 =
                .error (.badRequest, msg))
          ∧ (q1 + q2 ≤ p.stock_quantity →
              ∃ db2 it2, CartService.add_item_to_cart db1 cid pid q2 = .ok (db2, it2)
              ∧ it2.quantity = q1 + q2
              ∧ pairCount db2 cid pid = 1
              ∧ (db2.cart_items.find?
                  (fun it => it.cart_id = cid && it.product_id = pid)).map
                    CartItem.quantity = some (q1 + q2)))) := by
  obtain ⟨c0, hc0⟩ := Option.isSome_iff_exists.mp hcart
  have hnq1 : ¬ (q1 ≤ 0) := not_le.mpr hq1
  have hnq2 : ¬ (q2 ≤ 0) := not_le.mpr hq2
  rw [pairCount] at hfresh
  have hnil := List.length_eq_zero.mp hfresh
  have hall : ∀ it ∈ db.cart_items,
      (decide (it.cart_id = cid) && decide (it.product_id = pid)) = false := by
    intro it hit
    exact eq_false_of_ne_true (List.filter_eq_nil_iff.mp hnil it hit)
  have hfind0 : db.cart_items.find?
      (fun it => it.cart_id = cid && it.product_id = pid) = none :=
    find?_none_of_all_false _ db.cart_items hall
  constructor
  · intro hnone
    simp only [CartService.add_item_to_cart, CartRepo.add_item_to_cart, hc0,
      hnq1, if_false, hnone]
    exact ⟨_, rfl⟩
  · intro p hp
    constructor
    · intro hins
      simp only [CartService.add_item_to_cart, CartRepo.add_item_to_cart, hc0,
        hnq1, if_false, hp, hins, if_true]
      exact ⟨_, rfl⟩
    · intro hsuff
      have hnins : ¬ (p.stock_quantity < q1) := not_lt.mpr hsuff
      have hsvc1 : CartService.add_item_to_cart db cid pid q1 =
          .ok ({ db with cart_items := db.cart_items ++
                   [{ cart_id := cid, product_id := pid, quantity := q1,
                      unit_price := p.current_price }] },
               { cart_id := cid, product_id := pid, quantity := q1,
                 unit_price := p.current_price }) := by
        simp only [CartService.add_item_to_cart, CartRepo.add_item_to_cart, hc0,
          hnq1, if_false, hp, hnins, hfind0]
      refine ⟨_, _, hsvc1, rfl, rfl, ?_, ?_, ?_⟩
      · show (List.filter _ (db.cart_items ++ [_])).length = 1
        rw [List.filter_append, hnil]
        simp
      · intro hover
        simp only [CartService.add_item_to_cart, CartRepo.add_item_to_cart, hc0,
          hnq2, if_false, hp]
        by_cases hq2s : p.stock_quantity < q2
        · simp only [hq2s, if_true]
          exact ⟨_, rfl⟩
        · simp only [hq2s, if_false]
          rw [find?_append_of_none _ db.cart_items _ hall, find?_singleton_pair]
          simp only [hover, if_true]
          exact ⟨_, rfl⟩
      · intro hcomb
        have hq2s : ¬ (p.stock_quantity < q2) :=
          not_lt.mpr (le_trans (by linarith) hcomb)
        have hncomb : ¬ (p.stock_quantity < q1 + q2) := not_lt.mpr hcomb
        simp only [CartService.add_item_to_cart, CartRepo.add_item_to_cart, hc0,
          hnq2, if_false, hp, hq2s]
        rw [find?_append_of_none _ db.cart_items _ hall, find?_singleton_pair]
        simp only [hncomb, if_false]
        rw [updateFirstPair_append cid pid (q1 + q2) db.cart_items _ hall,
          updateFirstPair_singleton]
        refine ⟨_, _, rfl, rfl, ?_, ?_⟩
        · show (List.filter _ (db.cart_items ++ _)).length = 1
          rw [List.filter_append, hnil]
          simp
        · show ((db.cart_items ++ _).find? _).map CartItem.quantity = _
          rw [find?_append_of_none _ db.cart_items _ hall, find?_singleton_pair]
          rfl

def c9Prod : Product :=
  { id := 21, name := "C", sku := "SKU-C", price := 20, sale_price := none,
    stock_quantity := 5, min_stock_level := 1, is_active := true }

def c9DB : DB :=
  { products := [c9Prod],
    orders := [],
    carts := [{ id := 1, user_id := some 7, is_active := true }],
    cart_items := [] }

/-- Witness for C9: adding product 21 (stock 5) twice with quantities 2
and 3 to cart 1 goes through the merge path of the theorem. -/
theorem c9_witness :
    ∃ db1 it1, CartService.add_item_to_cart c9DB 1 21 2 = .ok (db1, it1)
    ∧ it1.quantity = 2 ∧ it1.unit_price = c9Prod.current_price
    ∧ pairCount db1 1 21 = 1
    ∧ (c9Prod.stock_quantity < 2 + 3 →
        ∃ msg, CartService.add_item_to_cart db1 1 21 3 =
          .error (.badRequest, msg))
    ∧ (2 + 3 ≤ c9Prod.stock_quantity →
        ∃ db2 it2, CartService.add_item_to_cart db1 1 21 3 = .ok (db2, it2)
        ∧ it2.quantity = 2 + 3
        ∧ pairCount db2 1 21 = 1
        ∧ (db2.cart_items.find?
            (fun it => it.cart_id = 1 && it.product_id = 21)).map
              CartItem.quantity = some (2 + 3)) :=
  ((c9_add_item_merges c9DB 1 21 2 3 rfl (by decide) (by decide) rfl).2
    c9Prod rfl).2 (by decide)

/-! ## C7: cart path versus direct path -/

/-- The direct-order item list matching a cart: same products and
quantities in the same positions, with each cart item price equal to the
product's catalog current_price (so the two paths see the same data). -/
def itemsMatchCatalog (db : DB) : List CartItem → List OrderItemCreate → Prop
  | [], [] => True
  | ci :: cs, oi :: os =>
      ci.product_id = oi.product_id ∧ ci.quantity = oi.quantity ∧
      (∀ p, findProduct db oi.product_id = some p →
        ci.unit_price = p.current_price) ∧
      itemsMatchCatalog db cs os
  | _, _ => False

/-- Matching lists are empty together. -/
theorem itemsMatch_nil_iff (db : DB) :
    ∀ (cis : List CartItem) (ois : List OrderItemCreate),
      itemsMatchCatalog db cis ois → (cis = [] ↔ ois = []) := by
  intro cis ois h
  cases cis <;> cases ois <;> simp_all [itemsMatchCatalog]

/-- On matching item lists the two validation loops agree: the direct
loop succeeds exactly when the cart loop does, errors carry the same
kind, and the accumulated direct total equals the accumulator plus the
cart subtotal sum. -/
theorem validate_match (db : DB) :
    ∀ (cis : List CartItem) (ois : List OrderItemCreate),
      itemsMatchCatalog db cis ois → ∀ acc : ℚ,
      (match validateDirectItems db acc ois with
       | .ok (t, _) => validateCartItems db cis = .ok () ∧
           t = acc + (cis.map CartItem.subtotal).sum
       | .error (k, _) => ∃ m1, validateCartItems db cis = .error (k, m1)) := by
  intro cis
  induction cis with
  | nil =>
    intro ois hm acc
    cases ois with
    | nil => simp [validateDirectItems, validateCartItems]
    | cons oi os => exact absurd hm (by simp [itemsMatchCatalog])
  | cons ci cs ih =>
    intro ois hm acc
    cases ois with
    | nil => exact absurd hm (by simp [itemsMatchCatalog])
    | cons oi os =>
      obtain ⟨hpid, hq, hprice, hrest⟩ := hm
      rw [validateDirectItems]
      cases hfp : findProduct db oi.product_id with
      | none =>
        have hfpc : findProduct db ci.product_id = none := by rw [hpid, hfp]
        simp only [validateCartItems, hfpc]
        exact ⟨_, rfl⟩
      | some p =>
        have hfpc : findProduct db ci.product_id = some p := by rw [hpid, hfp]
        by_cases hact : p.is_active
        · by_cases hstock : p.stock_quantity < oi.quantity
          · have hstockc : p.stock_quantity < ci.quantity := by rw [hq]; exact hstock
            simp only [hact, Bool.not_true, Bool.false_eq_true, if_false,
              if_pos hstock, validateCartItems, hfpc, if_pos hstockc]
            exact ⟨_, rfl⟩
          · have hstockc : ¬ (p.stock_quantity < ci.quantity) := by
              rw [hq]; exact hstock
            simp only [hact, Bool.not_true, Bool.false_eq_true, if_false,
              if_neg hstock]
            have hind := ih os hrest (acc + p.current_price * (oi.quantity : ℚ))
            rcases hval : validateDirectItems db
                (acc + p.current_price * (oi.quantity : ℚ)) os with e | tv
            · obtain ⟨k0, m0⟩ := e
              rw [hval] at hind
              obtain ⟨m1, hc⟩ := hind
              simp only [validateCartItems, hfpc, hact, Bool.not_true,
                Bool.false_eq_true, if_false, if_neg hstockc, hc]
              exact ⟨_, rfl⟩
            · obtain ⟨t, vs⟩ := tv
              rw [hval] at hind
              obtain ⟨hcok, hts⟩ := hind
              simp only [validateCartItems, hfpc, hact, Bool.not_true,
                Bool.false_eq_true, if_false, if_neg hstockc, hcok]
              refine ⟨by trivial, ?_⟩
              rw [hts, List.map_cons, List.sum_cons]
              have hsub : CartItem.subtotal ci = p.current_price * (oi.quantity : ℚ) := by
                rw [CartItem.subtotal, hprice p hfp, hq]
              rw [hsub]
              ring
        · have hactf : p.is_active = false := eq_false_of_ne_true hact
          simp only [hactf, Bool.not_false, if_true, validateCartItems, hfpc]
          exact ⟨_, rfl⟩

/-- Claim C7, amended: on matching inputs the two creation paths share
the per-item validation (success and error kinds coincide) and the
subtotal and tax computations, but not the shipping rule: the cart path
charges 0 when the subtotal is at least 100 and 10 otherwise, while the
direct path always charges the flat 10, so the totals differ exactly on
the free-shipping range. -/
theorem c7_same_computation_amended (db : DB) (cart : Cart) (user : User)
    (od : OrderCreate) (n1 n2 : String) (oid1 oid2 : Nat)
    (howner : cart.user_id = some user.id)
    (hmatch : itemsMatchCatalog db cart.items od.items) :
    ((∃ r, create_order_from_cart db cart user od n1 oid1 = .ok r) ↔
      (∃ r, create_order_direct db user od n2 oid2 = .ok r))
    ∧ (∀ k m, create_order_from_cart db cart user od n1 oid1 = .error (k, m) →
        ∃ m2, create_order_direct db user od n2 oid2 = .error (k, m2))
    ∧ (∀ db1 o1 db2 o2,
        create_order_from_cart db cart user od n1 oid1 = .ok (db1, o1) →
        create_order_direct db user od n2 oid2 = .ok (db2, o2) →
        o1.subtotal = o2.subtotal ∧ o1.tax_amount = o2.tax_amount ∧
        o2.shipping_cost = 10 ∧
        o1.shipping_cost = (if o1.subtotal ≥ 100 then (0 : ℚ) else 10) ∧
        o1.total_amount = o1.subtotal + o1.tax_amount + o1.shipping_cost ∧
        o2.total_amount = o2.subtotal + o2.tax_amount + 10) := by
  by_cases hne : cart.items = []
  · have hone : od.items = [] := (itemsMatch_nil_iff db _ _ hmatch).mp hne
    have h1 : create_order_from_cart db cart user od n1 oid1 =
        .error (.badRequest, "Cannot create order from empty cart") := by
      rw [create_order_from_cart, if_pos hne]
    have h2 : create_order_direct db user od n2 oid2 =
        .error (.badRequest, "Order must have at least one item") := by
      rw [create_order_direct, if_pos hone]
    refine ⟨?_, ?_, ?_⟩
    · rw [h1, h2]
      simp
    · intro k m h
      rw [h1] at h
      simp only [Except.error.injEq, Prod.mk.injEq] at h
      obtain ⟨hk, _⟩ := h
      rw [h2, ← hk]
      exact ⟨_, rfl⟩
    · intro db1 o1 db2 o2 ha _
      rw [h1] at ha
      cases ha
  · have hone : od.items ≠ [] :=
      fun h => hne ((itemsMatch_nil_iff db _ _ hmatch).mpr h)
    have hmain := validate_match db cart.items od.items hmatch 0
    rcases hdir : validateDirectItems db 0 od.items with e | tv
    · obtain ⟨k0, m0⟩ := e
      rw [hdir] at hmain
      obtain ⟨m1, hcart_err⟩ := hmain
      have h1 : create_order_from_cart db cart user od n1 oid1 =
          .error (k0, m1) := by
        rw [create_order_from_cart, if_neg hne, if_neg (fun hc => hc howner),
          hcart_err]
      have h2 : create_order_direct db user od n2 oid2 = .error (k0, m0) := by
        rw [create_order_direct, if_neg hone, hdir]
      refine ⟨?_, ?_, ?_⟩
      · rw [h1, h2]
        simp
      · intro k m h
        rw [h1] at h
        simp only [Except.error.injEq, Prod.mk.injEq] at h
        obtain ⟨hk, _⟩ := h
        rw [h2, ← hk]
        exact ⟨_, rfl⟩
      · intro db1 o1 db2 o2 ha _
        rw [h1] at ha
        cases ha
    · obtain ⟨t, vs⟩ := tv
      rw [hdir] at hmain
      obtain ⟨hcart_ok, hts⟩ := hmain
      have h1 : ∃ r, create_order_from_cart db cart user od n1 oid1 = .ok r ∧
          r.2.subtotal = cart.total_amount ∧
          r.2.tax_amount = _calculate_tax cart.total_amount ∧
          r.2.shipping_cost = _calculate_shipping cart ∧
          r.2.total_amount = cart.total_amount +
            _calculate_tax cart.total_amount + _calculate_shipping cart - 0 := by
        rw [create_order_from_cart, if_neg hne, if_neg (fun hc => hc howner),
          hcart_ok]
        exact ⟨_, rfl, rfl, rfl, rfl, rfl⟩
      have h2 : ∃ r, create_order_direct db user od n2 oid2 = .ok r ∧
          r.2.subtotal = t ∧
          r.2.tax_amount = _calculate_tax t ∧
          r.2.shipping_cost = 10 ∧
          r.2.total_amount = t + _calculate_tax t + 10 - 0 := by
        rw [create_order_direct, if_neg hone, hdir]
        exact ⟨_, rfl, rfl, rfl, rfl, rfl⟩
      obtain ⟨r1, hr1, hs1, htax1, hship1, htot1⟩ := h1
      obtain ⟨r2, hr2, hs2, htax2, hship2, htot2⟩ := h2
      have htt : t = cart.total_amount := by
        rw [hts, Cart.total_amount, zero_add]
      refine ⟨?_, ?_, ?_⟩
      · rw [hr1, hr2]
        simp
      · intro k m h
        rw [hr1] at h
        cases h
      · intro db1 o1 db2 o2 ha hb
        rw [hr1] at ha
        rw [hr2] at hb
        have ha1 : r1 = (db1, o1) := by injection ha
        have hb1 : r2 = (db2, o2) := by injection hb
        have ho1 : o1 = r1.2 := by rw [ha1]
        have ho2 : o2 = r2.2 := by rw [hb1]
        subst ho1
        subst ho2
        rw [hs1, hs2, htax1, htax2, hship1, hship2, htot1, htot2, htt]
        refine ⟨rfl, rfl, rfl, ?_, by ring, by ring⟩
        rw [_calculate_shipping]

def c7Product : Product :=
  { id := 31, name := "E", sku := "SKU-E", price := 130, sale_price := none,
    stock_quantity := 5, min_stock_level := 1, is_active := true }

def c7DB : DB :=
  { products := [c7Product], orders := [], carts := [], cart_items := [] }

def c7Cart : Cart :=
  { id := 1, user_id := some 7, is_active := true,
    items := [{ cart_id := 1, product_id := 31, quantity := 1, unit_price := 130 }] }

def c7User : User := { id := 7, is_superuser := false }

def c7OrderData : OrderCreate :=
  { shipping_address := "addr", shipping_city := "city", shipping_country := "country",
    shipping_postal_code := "00000", shipping_phone := none, billing_address := none,
    billing_city := none, billing_country := none, billing_postal_code := none,
    notes := none, payment_method := none,
    items := [{ product_id := 31, quantity := 1 }] }

/-- Claim C7, counterexample: the same single item (price 130, quantity
1) checked out through the cart gets shipping 0, but through
`create_order_direct` gets shipping 10 — the shipping computation rules
of the two paths differ, and so do the totals. -/
theorem c7_counterexample :
    (match create_order_from_cart c7DB c7Cart c7User c7OrderData "A" 1,
           create_order_direct c7DB c7User c7OrderData "B" 2 with
     | .ok (_, o1), .ok (_, o2) =>
        o1.subtotal = o2.subtotal ∧ o1.shipping_cost = 0 ∧
        o2.shipping_cost = 10 ∧ o1.shipping_cost ≠ o2.shipping_cost ∧
        o1.total_amount ≠ o2.total_amount
     | _, _ => False) := by
  norm_num [create_order_from_cart, create_order_direct, validateCartItems,
    validateDirectItems, findProduct, Cart.total_amount, CartItem.subtotal,
    Product.current_price, _calculate_tax, _calculate_shipping,
    _calculate_shipping_direct, _update_product_stock, update_stock,
    DB.setProduct, mkOrderItemFromCart, c7DB, c7Cart, c7User, c7OrderData,
    c7Product, List.cons_ne_nil, opSubtractNeAdd]

/-- Witness for C7 (amended) at the concrete matching inputs above:
both paths succeed together. -/
theorem c7_witness :
    (∃ r, create_order_from_cart c7DB c7Cart c7User c7OrderData "A" 1 = .ok r) ↔
      (∃ r, create_order_direct c7DB c7User c7OrderData "B" 2 = .ok r) :=
  (c7_same_computation_amended c7DB c7Cart c7User c7OrderData "A" "B" 1 2 rfl
    ⟨rfl, rfl, fun p hp => by injection hp with h; rw [← h]; rfl, trivial⟩).1

/-! ## C10: parent reassignment preserves acyclicity -/

/-- Once the parent walk has fallen off (reached a null or dangling
parent), more fuel does not revive it. -/
theorem iterParent_none_mono (cats : List Category) :
    ∀ (k : Nat) (i : Nat) (m : Nat), iterParent cats k i = none → k ≤ m →
      iterParent cats m i = none := by
  intro k
  induction k with
  | zero => intro i m h; cases h
  | succ k ih =>
    intro i m h hkm
    rw [iterParent] at h
    obtain ⟨m2, rfl⟩ : ∃ m2, m = m2 + 1 :=
      ⟨m - 1, by omega⟩
    rw [iterParent]
    cases hp : parentOf cats i with
    | none => rfl
    | some p =>
      rw [hp] at h
      exact ih p m2 h (by omega)

/-- Splitting an iterated parent walk. -/
theorem iterParent_add (cats : List Category) :
    ∀ (a b i : Nat), iterParent cats (a + b) i =
      (match iterParent cats a i with
       | none => none
       | some x => iterParent cats b x) := by
  intro a
  induction a with
  | zero => intro b i; simp [iterParent]
  | succ a ih =>
    intro b i
    rw [Nat.succ_add, iterParent, iterParent]
    cases hp : parentOf cats i with
    | none => rfl
    | some p => exact ih b p

/-- One parent step inside an iterated walk. -/
theorem iterParent_shift (cats : List Category) (i p k : Nat)
    (h : parentOf cats i = some p) :
    iterParent cats (k + 1) i = iterParent cats k p := by
  rw [iterParent, h]

/-- A node on a parent cycle never reaches a root. -/
theorem iterParent_cycle_no_none (cats : List Category) (i d : Nat)
    (hcyc : iterParent cats d i = some i) (hd : 1 ≤ d) :
    ∀ m, iterParent cats m i ≠ none := by
  intro m
  induction m using Nat.strong_induction_on with
  | _ m ih =>
    intro hnone
    by_cases hdm : d ≤ m
    · have hsplit := iterParent_add cats d (m - d) i
      rw [show d + (m - d) = m by omega, hnone, hcyc] at hsplit
      exact ih (m - d) (by omega) hsplit.symm
    · have := iterParent_none_mono cats m i d hnone (by omega)
      rw [this] at hcyc
      cases hcyc

/-- A node with a parent is a stored category id. -/
theorem parentOf_some_mem (cats : List Category) (i p : Nat)
    (h : parentOf cats i = some p) : i ∈ cats.map Category.id := by
  rw [parentOf] at h
  cases hg : getCategory cats i with
  | none => rw [hg] at h; cases h
  | some c =>
    have hmem : c ∈ cats := List.mem_of_find?_eq_some hg
    have hid : c.id = i := by
      have := List.find?_some hg
      simpa using this
    exact List.mem_map.mpr ⟨c, hmem, hid⟩

/-- A resolving parent pointer lands on a stored category id. -/
theorem parentOf_mem_of_resolve (cats : List Category)
    (hres : ∀ c ∈ cats, ∀ pp, c.parent_id = some pp → pp ∈ cats.map Category.id)
    (i p : Nat) (h : parentOf cats i = some p) : p ∈ cats.map Category.id := by
  rw [parentOf] at h
  cases hg : getCategory cats i with
  | none => rw [hg] at h; cases h
  | some c =>
    rw [hg] at h
    exact hres c (List.mem_of_find?_eq_some hg) p h

/-- Reassigning a parent keeps the stored ids. -/
theorem setParent_map_id (cats : List Category) (cid pid : Nat) :
    (setParent cats cid pid).map Category.id = cats.map Category.id := by
  induction cats with
  | nil => rfl
  | cons c l ih =>
    rw [setParent, List.map_cons, List.map_cons, List.map_cons]
    rw [show (setParent l cid pid) = l.map
      (fun c => if c.id = cid then { c with parent_id := some pid } else c) from rfl] at ih
    rw [ih]
    by_cases h : c.id = cid <;> simp [h]

/-- Reassigning a parent keeps the table size. -/
theorem setParent_length (cats : List Category) (cid pid : Nat) :
    (setParent cats cid pid).length = cats.length := by
  rw [setParent, List.length_map]

/-- Lookup after a parent reassignment. -/
theorem getCategory_setParent (cats : List Category) (cid pid x : Nat) :
    getCategory (setParent cats cid pid) x =
      (getCategory cats x).map
        (fun c => if c.id = cid then { c with parent_id := some pid } else c) := by
  induction cats with
  | nil => rfl
  | cons c l ih =>
    have hid : (if c.id = cid then { c with parent_id := some pid } else c).id
        = c.id := by
      by_cases h : c.id = cid <;> simp [h]
    rw [setParent, List.map_cons]
    rw [getCategory, getCategory, List.find?, List.find?, hid]
    by_cases hcx : c.id = x
    · rw [decide_eq_true hcx]
      rfl
    · rw [decide_eq_false hcx]
      exact ih

/-- Parent steps away from the reassigned category are unchanged. -/
theorem parentOf_setParent_ne (cats : List Category) (cid pid x : Nat)
    (hx : x ≠ cid) :
    parentOf (setParent cats cid pid) x = parentOf cats x := by
  rw [parentOf, parentOf, getCategory_setParent]
  cases hg : getCategory cats x with
  | none => rfl
  | some c =>
    have hid : c.id = x := by
      have := List.find?_some hg
      simpa using this
    rw [Option.map_some']
    rw [if_neg (fun h => hx (hid ▸ h))]

/-- The reassigned category now points at the new parent. -/
theorem parentOf_setParent_eq (cats : List Category) (cid pid : Nat)
    (c0 : Category) (hc0 : getCategory cats cid = some c0) :
    parentOf (setParent cats cid pid) cid = some pid := by
  rw [parentOf, getCategory_setParent, hc0, Option.map_some']
  have hid : c0.id = cid := by
    have := List.find?_some hc0
    simpa using this
  rw [if_pos hid]
  rfl

/-- Pigeonhole bound: in a table whose parent pointers resolve, a walk
that ever reaches a root does so within `|categories|` steps. -/
theorem iterParent_bound (cats : List Category)
    (hres : ∀ c ∈ cats, ∀ pp, c.parent_id = some pp → pp ∈ cats.map Category.id)
    (i : Nat) (hi : i ∈ cats.map Category.id)
    (k : Nat) (hk : iterParent cats k i = none) :
    iterParent cats cats.length i = none := by
  have hex : ∃ m, iterParent cats m i = none := ⟨k, hk⟩
  set d := Nat.find hex with hdd
  have hd : iterParent cats d i = none := Nat.find_spec hex
  have hmin : ∀ j, j < d → iterParent cats j i ≠ none :=
    fun j hj => Nat.find_min hex hj
  have hmem : ∀ j, j < d → ∃ x, iterParent cats j i = some x ∧
      x ∈ cats.map Category.id := by
    intro j
    induction j with
    | zero => intro _; exact ⟨i, rfl, hi⟩
    | succ j ihj =>
      intro hj
      obtain ⟨x, hx, hxmem⟩ := ihj (by omega)
      have hnotnone := hmin (j + 1) hj
      have hthis : iterParent cats (j + 1) i = iterParent cats 1 x := by
        have h := iterParent_add cats j 1 i
        rw [hx] at h
        exact h
      cases hp : parentOf cats x with
      | none =>
        have hnone : iterParent cats (j + 1) i = none := by
          rw [hthis, iterParent, hp]
        exact absurd hnone hnotnone
      | some p =>
        refine ⟨p, ?_, parentOf_mem_of_resolve cats hres x p hp⟩
        rw [hthis, iterParent, hp]
        rfl
  have hkey : ∀ a b, a < b → b < d →
      (iterParent cats a i).getD 0 ≠ (iterParent cats b i).getD 0 := by
    intro a b hab hbd heq
    obtain ⟨xa, hxa, _⟩ := hmem a (by omega)
    obtain ⟨xb, hxb, _⟩ := hmem b hbd
    rw [hxa, hxb] at heq
    simp only [Option.getD_some] at heq
    have hiter : iterParent cats a i = iterParent cats b i := by
      rw [hxa, hxb, heq]
    have hshift : iterParent cats (a + (d - b)) i = none := by
      have h1 := iterParent_add cats a (d - b) i
      have h2 := iterParent_add cats b (d - b) i
      rw [show b + (d - b) = d by omega, hd] at h2
      rw [hiter] at h1
      rw [h1, ← iterParent_add cats b (d - b) i, show b + (d - b) = d by omega,
        hd]
    exact hmin (a + (d - b)) (by omega) hshift
  have hinj : Set.InjOn (fun j => (iterParent cats j i).getD 0)
      (Finset.range d) := by
    intro a ha b hb heq
    simp only [Finset.coe_range, Set.mem_Iio] at ha hb
    rcases lt_trichotomy a b with h | h | h
    · exact absurd heq (hkey a b h hb)
    · exact h
    · exact absurd heq.symm (hkey b a h ha)
  have hmaps : ∀ j ∈ Finset.range d,
      (iterParent cats j i).getD 0 ∈ (cats.map Category.id).toFinset := by
    intro j hj
    rw [Finset.mem_range] at hj
    obtain ⟨x, hx, hxmem⟩ := hmem j hj
    rw [hx]
    simpa using hxmem
  have hcard := Finset.card_le_card_of_injOn _ hmaps hinj
  rw [Finset.card_range] at hcard
  have hlen : (cats.map Category.id).toFinset.card ≤ cats.length := by
    calc (cats.map Category.id).toFinset.card
        ≤ (cats.map Category.id).length := List.toFinset_card_le _
      _ = cats.length := List.length_map _ _
  exact iterParent_none_mono cats d i cats.length hd (by omega)

/-- Completeness of the cycle-check walk: when the walk from a rooted
start (with enough fuel, no forbidden revisits) returns false, no number
of parent steps from the start reaches the target. -/
theorem walkAux_false_no_reach (cats : List Category) (target : Nat) :
    ∀ (fuel current : Nat) (visited : List Nat),
      iterParent cats fuel current = none →
      (∀ k x, iterParent cats k current = some x → x ∉ visited) →
      walkAux cats target fuel current visited = false →
      ∀ k, iterParent cats k current ≠ some target := by
  intro fuel
  induction fuel with
  | zero => intro current visited hnone _ _; cases hnone
  | succ fuel ih =>
    intro current visited hnone havoid hw
    rw [walkAux] at hw
    by_cases hcv : current ∈ visited
    · exact absurd hcv (havoid 0 current rfl)
    · rw [if_neg hcv] at hw
      by_cases hct : current = target
      · rw [if_pos hct] at hw
        cases hw
      · rw [if_neg hct] at hw
        cases hp : parentOf cats current with
        | none =>
          intro k
          cases k with
          | zero => exact fun h => hct (by injection h)
          | succ k =>
            rw [iterParent, hp]
            exact fun h => by cases h
        | some p =>
          rw [hp] at hw
          have hnone2 : iterParent cats fuel p = none := by
            rw [iterParent, hp] at hnone
            exact hnone
          have havoid2 : ∀ k x, iterParent cats k p = some x →
              x ∉ current :: visited := by
            intro k x hkx
            have hshift : iterParent cats (k + 1) current = some x := by
              rw [iterParent_shift cats current p k hp]
              exact hkx
            intro hmem
            cases List.mem_cons.mp hmem with
            | inl hxc =>
              rw [hxc] at hshift
              exact iterParent_cycle_no_none cats current (k + 1) hshift
                (by omega) (fuel + 1) hnone
            | inr hxv => exact havoid (k + 1) x hshift hxv
          have hrest := ih p (current :: visited) hnone2 havoid2 hw
          intro k
          cases k with
          | zero => exact fun h => hct (by injection h)
          | succ k =>
            rw [iterParent_shift cats current p k hp]
            exact hrest k

/-- The unexplored-ids measure of the cycle-check walk. -/
def walkMeasure (cats : List Category) (visited : List Nat) : Nat :=
  ((cats.map Category.id).toFinset \ visited.toFinset).card

/-- The cycle-check walk is fuel-independent once the fuel exceeds the
number of unvisited stored ids: tracking visited ids makes it terminate,
even on corrupt (pre-existing) parent cycles. -/
theorem walkAux_stable (cats : List Category) (target : Nat) :
    ∀ (f1 f2 current : Nat) (visited : List Nat),
      walkMeasure cats visited < f1 → walkMeasure cats visited < f2 →
      walkAux cats target f1 current visited =
        walkAux cats target f2 current visited := by
  intro f1
  induction f1 with
  | zero => intro f2 current visited h1 _; cases h1
  | succ f1 ih =>
    intro f2 current visited h1 h2
    cases f2 with
    | zero => cases h2
    | succ f2 =>
      rw [walkAux, walkAux]
      by_cases hcv : current ∈ visited
      · rw [if_pos hcv, if_pos hcv]
      · rw [if_neg hcv, if_neg hcv]
        by_cases hct : current = target
        · rw [if_pos hct, if_pos hct]
        · rw [if_neg hct, if_neg hct]
          cases hp : parentOf cats current with
          | none => rfl
          | some p =>
            have hmemid : current ∈ cats.map Category.id :=
              parentOf_some_mem cats current p hp
            have hdec : walkMeasure cats (current :: visited) <
                walkMeasure cats visited := by
              rw [walkMeasure, walkMeasure, List.toFinset_cons,
                Finset.sdiff_insert]
              refine Finset.card_erase_lt_of_mem ?_
              rw [Finset.mem_sdiff]
              exact ⟨by simpa using hmemid, by simpa using hcv⟩
            exact ih f2 p (current :: visited) (by omega) (by omega)

/-- Walks whose old orbit avoids the reassigned category are unchanged by
the reassignment. -/
theorem iterParent_setParent_avoid (cats : List Category) (cid pid : Nat) :
    ∀ (k x : Nat), (∀ j, iterParent cats j x ≠ some cid) →
      iterParent (setParent cats cid pid) k x = iterParent cats k x := by
  intro k
  induction k with
  | zero => intro x _; rfl
  | succ k ih =>
    intro x havoid
    have hx : x ≠ cid := fun h => havoid 0 (by rw [h]; rfl)
    rw [iterParent, iterParent, parentOf_setParent_ne cats cid pid x hx]
    cases hp : parentOf cats x with
    | none => rfl
    | some p =>
      refine ih p (fun j hj => ?_)
      have : iterParent cats (j + 1) x = some cid := by
        rw [iterParent_shift cats x p j hp]
        exact hj
      exact havoid (j + 1) this

/-- The minimal old walk reaching the reassigned category is preserved by
the reassignment (its intermediate nodes are untouched). -/
theorem iterParent_setParent_prefix (cats : List Category) (cid pid : Nat) :
    ∀ (j x : Nat), iterParent cats j x = some cid →
      (∀ j2, j2 < j → iterParent cats j2 x ≠ some cid) →
      iterParent (setParent cats cid pid) j x = some cid := by
  intro j
  induction j with
  | zero => intro x h _; exact h
  | succ j ih =>
    intro x h hmin
    have hx : x ≠ cid := fun hxc => hmin 0 (by omega) (by rw [hxc]; rfl)
    cases hp : parentOf cats x with
    | none =>
      rw [iterParent, hp] at h
      cases h
    | some p =>
      rw [iterParent_shift cats x p j hp] at h
      rw [iterParent, parentOf_setParent_ne cats cid pid x hx, hp]
      refine ih p h (fun j2 hj2 hbad => ?_)
      refine hmin (j2 + 1) (by omega) ?_
      rw [iterParent_shift cats x p j2 hp]
      exact hbad

/-- Claim C10: two conjuncts. First, starting from a well-formed acyclic
category forest (every parent resolves; following parent_id from any
category reaches a null parent within |categories| steps), any parent
reassignment accepted by `update_category_parent` preserves both
properties — the accepted reassignment cannot create a cycle. Second,
with no assumption on the table at all — pre-existing corrupt parent
cycles included — the cycle-check walk terminates because it tracks
visited ids: any fuel of at least |categories| + 1 computes the same
answer as `_would_create_cycle`. -/
theorem c10_update_preserves_acyclicity (cats cats2 : List Category)
    (cid pid : Nat) :
    (parentsResolve cats = true → acyclicB cats = true →
      update_category_parent cats cid pid = .ok cats2 →
      acyclicB cats2 = true ∧ parentsResolve cats2 = true)
    ∧ (∀ tid np fuel, cats.length + 1 ≤ fuel →
      walkAux cats tid fuel np [] = _would_create_cycle cats tid np) := by
  constructor
  · intro hres hAc hOk
    rw [update_category_parent] at hOk
    cases hc0 : getCategory cats cid with
    | none => rw [hc0] at hOk; cases hOk
    | some c0 =>
    rw [hc0] at hOk
    by_cases hpc : pid = cid
    · rw [if_pos hpc] at hOk; cases hOk
    · rw [if_neg hpc] at hOk
      cases hcp : getCategory cats pid with
      | none => rw [hcp] at hOk; cases hOk
      | some pcat =>
      rw [hcp] at hOk
      by_cases hact : pcat.is_active
      · simp only [hact, Bool.not_true, Bool.false_eq_true, if_false] at hOk
        by_cases hcyc : _would_create_cycle cats cid pid
        · rw [if_pos hcyc] at hOk; cases hOk
        · rw [if_neg hcyc] at hOk
          have hcats2 : cats2 = setParent cats cid pid := by
            injection hOk with h
            rw [h]
          have hresP : ∀ c ∈ cats, ∀ pp, c.parent_id = some pp →
              pp ∈ cats.map Category.id := by
            intro c hc pp hpp
            have h := (List.all_eq_true.mp hres) c hc
            rw [hpp] at h
            have h2 : cats.any (fun c2 => c2.id = pp) = true := h
            obtain ⟨c2, hc2, he⟩ := List.any_eq_true.mp h2
            exact List.mem_map.mpr ⟨c2, hc2, of_decide_eq_true he⟩
          have hAcP : ∀ c ∈ cats, iterParent cats cats.length c.id = none := by
            intro c hc
            have h := (List.all_eq_true.mp hAc) c hc
            exact Option.isNone_iff_eq_none.mp h
          have hpcat_id : pcat.id = pid := by
            have := List.find?_some hcp
            simpa using this
          have hpcmem : pcat ∈ cats := List.mem_of_find?_eq_some hcp
          have hpidmem : pid ∈ cats.map Category.id :=
            List.mem_map.mpr ⟨pcat, hpcmem, hpcat_id⟩
          have hrootp : iterParent cats cats.length pid = none := by
            have := hAcP pcat hpcmem
            rw [hpcat_id] at this
            exact this
          have hwalkP : ∀ k, iterParent cats k pid ≠ some cid := by
            apply walkAux_false_no_reach cats cid (cats.length + 1) pid []
            · exact iterParent_none_mono cats cats.length pid (cats.length + 1)
                hrootp (by omega)
            · intro k x _
              exact List.not_mem_nil x
            · exact eq_false_of_ne_true hcyc
          have hid2 : cats2.map Category.id = cats.map Category.id := by
            rw [hcats2]
            exact setParent_map_id cats cid pid
          have hlen2 : cats2.length = cats.length := by
            rw [hcats2]
            exact setParent_length cats cid pid
          have hres2P : ∀ c ∈ cats2, ∀ pp, c.parent_id = some pp →
              pp ∈ cats2.map Category.id := by
            intro c' hc' pp hpp
            rw [hid2]
            rw [hcats2, setParent] at hc'
            obtain ⟨c, hc, hceq⟩ := List.mem_map.mp hc'
            by_cases hcid : c.id = cid
            · rw [← hceq, if_pos hcid] at hpp
              have : pid = pp := by injection hpp
              rw [← this]
              exact hpidmem
            · rw [← hceq, if_neg hcid] at hpp
              exact hresP c hc pp hpp
          have hres2 : parentsResolve cats2 = true := by
            rw [parentsResolve, List.all_eq_true]
            intro c' hc'
            show (match c'.parent_id with
              | none => true
              | some p => cats2.any (fun c2 => c2.id = p)) = true
            cases hpp : c'.parent_id with
            | none => rfl
            | some pp =>
              have hmem := hres2P c' hc' pp hpp
              rw [List.any_eq_true]
              obtain ⟨c2, hc2, hc2id⟩ := List.mem_map.mp hmem
              exact ⟨c2, hc2, decide_eq_true hc2id⟩
          have hpar2 : parentOf cats2 cid = some pid := by
            rw [hcats2]
            exact parentOf_setParent_eq cats cid pid c0 hc0
          refine ⟨?_, hres2⟩
          rw [acyclicB, List.all_eq_true]
          intro c' hc'
          show (iterParent cats2 cats2.length c'.id).isNone = true
          rw [Option.isNone_iff_eq_none]
          have hxmem : c'.id ∈ cats.map Category.id := by
            have : c'.id ∈ cats2.map Category.id :=
              List.mem_map.mpr ⟨c', hc', rfl⟩
            rwa [hid2] at this
          obtain ⟨c, hcmem, hcid⟩ := List.mem_map.mp hxmem
          have hrootx : iterParent cats cats.length c'.id = none := by
            rw [← hcid]
            exact hAcP c hcmem
          have hexist : ∃ k, iterParent cats2 k c'.id = none := by
            by_cases hreach : ∃ j, iterParent cats j c'.id = some cid
            · have hjm : iterParent cats (Nat.find hreach) c'.id = some cid :=
                Nat.find_spec hreach
              have hjmin : ∀ j2, j2 < Nat.find hreach →
                  iterParent cats j2 c'.id ≠ some cid :=
                fun j2 h => Nat.find_min hreach h
              have hpre : iterParent cats2 (Nat.find hreach) c'.id = some cid := by
                rw [hcats2]
                exact iterParent_setParent_prefix cats cid pid
                  (Nat.find hreach) c'.id hjm hjmin
              refine ⟨Nat.find hreach + (1 + cats.length), ?_⟩
              rw [iterParent_add cats2 (Nat.find hreach) (1 + cats.length) c'.id,
                hpre]
              show iterParent cats2 (1 + cats.length) cid = none
              rw [show 1 + cats.length = cats.length + 1 from by omega,
                iterParent_shift cats2 cid pid cats.length hpar2]
              rw [hcats2,
                iterParent_setParent_avoid cats cid pid cats.length pid hwalkP]
              exact hrootp
            · push_neg at hreach
              refine ⟨cats.length, ?_⟩
              rw [hcats2,
                iterParent_setParent_avoid cats cid pid cats.length c'.id hreach]
              exact hrootx
          obtain ⟨k, hk⟩ := hexist
          have hbound := iterParent_bound cats2 hres2P c'.id
            (by rw [hid2]; exact hxmem) k hk
          rw [hlen2] at hbound ⊢
          exact hbound
      · simp only [eq_false_of_ne_true hact, Bool.not_false, if_true] at hOk
        cases hOk
  · intro tid np fuel hfuel
    rw [_would_create_cycle]
    have hm : walkMeasure cats [] ≤ cats.length := by
      rw [walkMeasure, List.toFinset_nil, Finset.sdiff_empty]
      calc (cats.map Category.id).toFinset.card
          ≤ (cats.map Category.id).length := List.toFinset_card_le _
        _ = cats.length := List.length_map _ _
    exact walkAux_stable cats tid fuel (cats.length + 1) np []
      (by omega) (by omega)

def c10Cats : List Category :=
  [{ id := 1, parent_id := none, is_active := true },
   { id := 2, parent_id := none, is_active := true }]

/-- A corrupt table: categories 1 and 2 form a pre-existing parent
cycle. -/
def c10CorruptCats : List Category :=
  [{ id := 1, parent_id := some 2, is_active := true },
   { id := 2, parent_id := some 1, is_active := true }]

/-- Witness for C10: reassigning category 2 under category 1 in a
two-node forest is accepted and the result is still an acyclic,
well-formed forest; and on the corrupt two-node parent cycle the
cycle-check walk gives the same (terminating) answer at any surplus
fuel. -/
theorem c10_witness :
    (acyclicB (setParent c10Cats 2 1) = true ∧
      parentsResolve (setParent c10Cats 2 1) = true) ∧
    walkAux c10CorruptCats 5 (c10CorruptCats.length + 1 + 7) 1 [] =
      _would_create_cycle c10CorruptCats 5 1 := by
  have h1 := c10_update_preserves_acyclicity c10Cats (setParent c10Cats 2 1) 2 1
  have h2 := c10_update_preserves_acyclicity c10CorruptCats c10CorruptCats 5 1
  exact ⟨h1.1 (by decide) (by decide) rfl,
    h2.2 5 1 (c10CorruptCats.length + 1 + 7) (by decide)⟩
